import Mathlib

/-!
# check_dns_soa: a shallow embedding of the zone-health check

Sources: `check_dns_soa.go` (functions `localQuery`, `testSoa`, `main`) and
`nagios/nagios.go` (`Status`, `ExitStatus`).

Conventions of the embedding.

* The network is an oracle. Every exchange the program can perform has a
  unique position in its control flow (which resolver of the list, which
  answer record, which address, which attempt), and the oracle maps that
  position to the outcome of the exchange. Quantifying over oracles is
  quantifying over every combination of responses.
* A Go pair `(r *dns.Msg, err error)` is a pair of options: `none` is `nil`.
* The counters are Go `uint`/`int`. They only ever count records of one DNS
  answer, so they stay far below `2^64` and are embedded as `Nat`.
* `nagios.ExitStatus` ends the process (`os.Exit`), so each call of it in
  `main` is a return of the embedding.
* A Go run-time panic (index or slice bounds out of range) is `Except.error`.
* `State.trace` is ghost state: the calls of `localQuery` and `testSoa`
  that `main` has made so far, in order.
-/

namespace CheckDnsSoa

/-! ## nagios/nagios.go -/

namespace nagios

/-- Go: `type Status int`. -/
abbrev Status := Int

def OK : Status := 0
def WARNING : Status := 1
def CRITICAL : Status := 2
def UNKNOWN : Status := 3

/-- Go: `func (status Status) String() string`. -/
def Status.String (status : Status) : String :=
  if status = OK then "OK"
  else if status = WARNING then "WARNING"
  else if status = CRITICAL then "CRITICAL"
  else if status = UNKNOWN then "UNKNOWN"
  else "UNDEFINED"

/-- What a terminated process leaves behind: its standard output and its
exit code. -/
structure Process where
  stdout : String
  exitCode : Int
  deriving DecidableEq, Repr

/-- The loop `for i := 0; i < len(extraMessages); i++ { Printf("%s\n", ...) }`. -/
def printLines : List String → String
  | [] => ""
  | l :: rest => l ++ "\n" ++ printLines rest

/-- Go: `func ExitStatus(status, msg, extraMessages, forceDisplay)`, with the
package variables `Service` and `Verbosity` passed explicitly. -/
def ExitStatus (Service : String) (Verbosity : Nat) (status : Status) (msg : String)
    (extraMessages : List String) (forceDisplay : Bool) : Process :=
  { stdout := Service ++ " " ++ Status.String status ++ ": " ++ msg ++ "\n" ++
      (if forceDisplay || decide (Verbosity ≥ 2) then printLines extraMessages else "")
    exitCode := status }

end nagios

/-! ## The DNS library types used by the program -/

def MAXERRS : Nat := 10
def MAXINFOS : Nat := 100

/-- Go: `dns.RcodeSuccess`. -/
def RcodeSuccess : Nat := 0
/-- Go: `dns.RcodeNameError`. -/
def RcodeNameError : Nat := 3

/-- The record kinds the program dispatches on (`*dns.RR_NS`, `*dns.RR_A`,
`*dns.RR_AAAA`, `*dns.RR_SOA`); every other kind is `other`. Addresses are
kept in their textual form (`A.String()`). -/
inductive RR where
  | NS (Ns : String)
  | A (A : String)
  | AAAA (AAAA : String)
  | SOA (Serial : Nat)
  | other (rrtype : Nat)
  deriving DecidableEq, Repr

/-- The fields of `dns.Msg` the program reads. -/
structure Msg where
  Rcode : Nat
  Authoritative : Bool
  Answer : List RR
  deriving DecidableEq, Repr

/-- A Go `error`: its text, and whether it is a `net.Error` whose
`Timeout()` is true. -/
structure GoError where
  text : String
  timeout : Bool
  deriving DecidableEq, Repr

/-- The outcome of one `Client.Exchange`: `(r, _, err)`. -/
structure Exchange where
  r : Option Msg
  err : Option GoError
  deriving DecidableEq, Repr

/-- Go: `dns.ClientConfig`, the fields read by the program. -/
structure ClientConfig where
  Servers : List String
  Port : String
  deriving DecidableEq, Repr

/-- How `fmt.Sprintf("%s", err)` renders an error value. -/
def fmtErr : Option GoError → String
  | some e => e.text
  | none => "%!s(<nil>)"

/-! ## localQuery -/

/-- The loop of `localQuery`: `exchange serverIndex` is the outcome of
`localc.Exchange(localm, JoinHostPort(conf.Servers[serverIndex], conf.Port))`. -/
def localQueryFrom (exchange : Nat → Exchange) : List String → Nat → Option Msg × Option GoError
  | [], _ => (none, some ⟨"No name server to answer the question", false⟩)
  | _ :: rest, serverIndex =>
    match (exchange serverIndex).r with
    | none => (none, (exchange serverIndex).err)
    | some r =>
      if r.Rcode = RcodeNameError then (some r, (exchange serverIndex).err)
      else if r.Rcode = RcodeSuccess then (some r, (exchange serverIndex).err)
      else localQueryFrom exchange rest (serverIndex + 1)

/-- Go: `func localQuery(qname string, qtype uint16) (r *dns.Msg, err error)`. -/
def localQuery (conf : ClientConfig) (exchange : Nat → Exchange) : Option Msg × Option GoError :=
  localQueryFrom exchange conf.Servers 0

/-! ## testSoa -/

/-- Go: `if e, ok := err.(net.Error); ok && e.Timeout()` under `err != nil`. -/
def Exchange.isTimeout (x : Exchange) : Bool :=
  match x.err with
  | some e => e.timeout
  | none => false

/-- The loop `for !over { ... }` of `testSoa`. `exchange n` is the outcome of
the exchange performed after `n` earlier ones; `tests` is the Go variable,
`calls` counts the exchanges performed (ghost). The result is the pair
`(soa, err)` held when the loop ends, with the number of exchanges
performed; `none` is fuel exhaustion. -/
def testSoaLoop (exchange : Nat → Exchange) (tries : Nat) :
    Nat → Nat → Nat → Option (Exchange × Nat)
  | 0, _, _ => none
  | fuel + 1, tests, calls =>
    match (exchange calls).err with
    | some e =>
      if e.timeout then
        if tests + 1 < tries then testSoaLoop exchange tries fuel (tests + 1) (calls + 1)
        else some (exchange calls, calls + 1)
      else some (exchange calls, calls + 1)
    | none => some (exchange calls, calls + 1)

/-- Go: `func testSoa(msg *dns.Msg, server string, tries uint)`. The fuel
`tries + 1` is always enough (`testSoa_some`). -/
def testSoa (exchange : Nat → Exchange) (tries : Nat) : Option (Exchange × Nat) :=
  testSoaLoop exchange tries (tries + 1) 0 0

/-! ## main -/

/-- Go: `dns.TypeA`, `dns.TypeNS`, `dns.TypeSOA`, `dns.TypeAAAA`. -/
def TypeA : Nat := 1
def TypeNS : Nat := 2
def TypeSOA : Nat := 6
def TypeAAAA : Nat := 28

/-- Go: `net.JoinHostPort` (library): a host holding a colon or a percent
sign is bracketed. -/
def JoinHostPort (host port : String) : String :=
  if host.data.any (fun c => c == ':' || c == '%') then "[" ++ host ++ "]:" ++ port
  else host ++ ":" ++ port

/-- Go: `dns.Fqdn` (library): append the root dot when it is missing. -/
def Fqdn (s : String) : String :=
  if s.data.getLast? = some '.' then s else s ++ "."

/-- Ways a run ends without reaching `nagios.ExitStatus`. -/
inductive Abort where
  | indexOutOfRange
  | sliceBoundsOutOfRange
  | outOfFuel
  deriving DecidableEq, Repr

/-- Ghost events: the calls `main` makes, in order. -/
inductive Event where
  | clientConfigFromFile
  | localQuery (qname : String) (qtype : Nat)
  | testSoa (server : String)
  deriving DecidableEq, Repr

/-- The parsed command line (the values behind the flag pointers once
`fs.Parse` has succeeded) and `os.Args[0]`. -/
structure Flags where
  arg0 : String
  zoneP : String
  versionP : Bool
  verbosityP : Nat
  warningThresholdP : Nat
  criticalThresholdP : Nat
  timeoutP : Nat
  maxtriesP : Nat
  ipv4P : Bool
  ipv6P : Bool
  allServersP : Bool
  deriving DecidableEq, Repr

/-- The package-level variables as `main` leaves them before the first query. -/
structure Config where
  zone : String
  maxtries : Nat
  warningThreshold : Nat
  criticalThreshold : Nat
  v4only : Bool
  v6only : Bool
  requireAllServers : Bool
  Verbosity : Nat
  deriving DecidableEq, Repr

/-- Everything outside the process. The exchanges are indexed by their
position in the run: `nsExchange k` answers the zone's NS query at resolver
`k`; `aExchange i k` and `aaaaExchange i k` answer the address queries made
for answer record `i` at resolver `k`; `soaExchange i j n` is the outcome of
the exchange number `n` of `testSoa` for address `j` of answer record `i`.
`Rcode_str` is the library table `dns.Rcode_str`. -/
structure World where
  conf : Option ClientConfig
  confErr : Option GoError
  nsExchange : Nat → Exchange
  aExchange : Nat → Nat → Exchange
  aaaaExchange : Nat → Nat → Exchange
  soaExchange : Nat → Nat → Nat → Exchange
  Rcode_str : Nat → String

/-- The local variables of `main` that the per-server loop updates.
`successServer` is reset at the start of every iteration. -/
structure State where
  brokenServers : Nat
  availableServers : Nat
  numNS : Nat
  errors : Nat
  infos : Nat
  errorMessages : List String
  infoMessages : List String
  successServer : Bool
  trace : List Event
  deriving DecidableEq, Repr

/-- The arguments of the call of `nagios.ExitStatus` that ends the run, the
value of `nagios.Verbosity` at that moment and the ghost trace. -/
structure Exit where
  status : nagios.Status
  msg : String
  extraMessages : List String
  forceDisplay : Bool
  Verbosity : Nat
  trace : List Event
  deriving DecidableEq, Repr

/-- What the process prints and returns: `nagios.Service` is set to
`"CHECK_DNS_SOA"` at the start of `main`. -/
def Exit.process (e : Exit) : nagios.Process :=
  nagios.ExitStatus "CHECK_DNS_SOA" e.Verbosity e.status e.msg e.extraMessages e.forceDisplay

/-- The block repeated at every failure site of the loop:
`if successServer { brokenServers += 1; successServer = false }` followed by
`if errors < MAXERRS { errorMessages[errors] = msg; errors++ }`. -/
def markBroken (msg : String) (st : State) : State :=
  let st1 := if st.successServer then
      { st with brokenServers := st.brokenServers + 1, successServer := false }
    else st
  if st1.errors < MAXERRS then
    { st1 with errorMessages := st1.errorMessages.set st1.errors msg, errors := st1.errors + 1 }
  else st1

/-- One of the two sibling blocks `if !v6only { ... }` / `if !v4only { ... }`:
the lookup of the addresses of one family. `none` in the second component is
the `continue` of the source; otherwise it holds the addresses appended to
`ips`. `family` is `"IPv4"` or `"IPv6"`, `pick` keeps the records of the
family. -/
def lookupFamily (conf : ClientConfig) (w : World) (exchange : Nat → Exchange)
    (family : String) (qtype : Nat) (pick : RR → Option String)
    (nameserver : String) (st0 : State) : State × Option (List String) :=
  let st := { st0 with trace := st0.trace ++ [Event.localQuery nameserver qtype] }
  match localQuery conf exchange with
  | (none, err) =>
    (markBroken ("Error getting the " ++ family ++ " address of " ++ nameserver ++ ": " ++
      fmtErr err) st, none)
  | (some ra, _) =>
    if ra.Rcode ≠ RcodeSuccess then
      (markBroken ("Error getting the " ++ family ++ " address of " ++ nameserver ++ ": " ++
        w.Rcode_str ra.Rcode) st, none)
    else (st, some (ra.Answer.filterMap pick))

/-- Go: `infoMessages[infos] += text`. The index is in range whenever the
statement is reached: `infoMessages[infos]` was assigned earlier in the same
iteration. -/
def appendInfo (text : String) (st : State) : State :=
  { st with
    infoMessages := st.infoMessages.set st.infos (st.infoMessages.getD st.infos "" ++ text) }

def pickA : RR → Option String
  | RR.A a => some a
  | _ => none

def pickAAAA : RR → Option String
  | RR.AAAA a => some a
  | _ => none

/-- The body of `for j := range ips`: one direct SOA query and its
classification. -/
def checkAddress (cfg : Config) (w : World) (i : Nat) (nameserver : String)
    (j : Nat) (ip : String) (st0 : State) : Except Abort State :=
  let st := { st0 with trace := st0.trace ++ [Event.testSoa (JoinHostPort ip "53")] }
  match testSoa (w.soaExchange i j) cfg.maxtries with
  | none => .error Abort.outOfFuel
  | some (x, _) =>
    match x.r with
    | none =>
      .ok (markBroken ("Cannot get SOA from " ++ nameserver ++ "/" ++ ip ++ ": " ++ fmtErr x.err) st)
    | some soa =>
      if soa.Rcode ≠ RcodeSuccess then
        .ok (markBroken (ip ++ " (" ++ w.Rcode_str soa.Rcode ++ ") ") st)
      else
        match soa.Answer with
        | [] =>
          .ok (markBroken ("Cannot get SOA from " ++ nameserver ++ "/" ++ ip ++ ": 0 answer ") st)
        | RR.SOA serial :: _ =>
          if soa.Authoritative then
            .ok (appendInfo (ip ++ " (" ++ toString serial ++ ") ") st)
          else
            .ok (markBroken (nameserver ++ "/" ++ ip ++ " is not authoritative") st)
        | _ :: _ => .ok st

/-- The loop `for j := range ips`. -/
def checkAddresses (cfg : Config) (w : World) (i : Nat) (nameserver : String) :
    List String → Nat → State → Except Abort State
  | [], _, st => .ok st
  | ip :: rest, j, st =>
    match checkAddress cfg w i nameserver j ip st with
    | .ok st1 => checkAddresses cfg w i nameserver rest (j + 1) st1
    | .error e => .error e

/-- The text put after `No IP` in the zero-address message. -/
def ipVersion (cfg : Config) : String :=
  if cfg.v6only then "v6" else if cfg.v4only then "v4" else ""

/-- Lines 189 to 252: the two address lookups of one name server. `none` in
the second component is a `continue` of the source, otherwise it is `ips`. -/
def resolveAddresses (cfg : Config) (conf : ClientConfig) (w : World) (i : Nat)
    (nameserver : String) (st : State) : State × Option (List String) :=
  match (if !cfg.v6only then
      lookupFamily conf w (w.aExchange i) "IPv4" TypeA pickA nameserver st
    else (st, some [])) with
  | (st1, none) => (st1, none)
  | (st1, some ips4) =>
    match (if !cfg.v4only then
        lookupFamily conf w (w.aaaaExchange i) "IPv6" TypeAAAA pickAAAA nameserver st1
      else (st1, some [])) with
    | (st2, none) => (st2, none)
    | (st2, some ips6) => (st2, some (ips4 ++ ips6))

/-- The body of `case *dns.RR_NS:` for answer record `i`. The assignment
`infoMessages[infos] = ...` is bounds-checked by the Go run time. -/
def processNS (cfg : Config) (conf : ClientConfig) (w : World) (i : Nat)
    (nameserver : String) (st0 : State) : Except Abort State :=
  let st1 := { st0 with numNS := st0.numNS + 1 }
  if st1.infos < st1.infoMessages.length then
    let st2 := { st1 with infoMessages := st1.infoMessages.set st1.infos (nameserver ++ " : ") }
    match resolveAddresses cfg conf w i nameserver st2 with
    | (st3, none) => .ok st3
    | (st3, some ips) =>
      if ips.length = 0 then
        if cfg.requireAllServers || (!cfg.v4only && !cfg.v6only) then
          .ok (markBroken ("No IP" ++ ipVersion cfg ++ " address for this server " ++
            nameserver) st3)
        else
          match checkAddresses cfg w i nameserver ips 0 st3 with
          | .ok st4 => .ok { st4 with infos := st4.infos + 1 }
          | .error e => .error e
      else
        match checkAddresses cfg w i nameserver ips 0
            { st3 with availableServers := st3.availableServers + 1 } with
        | .ok st4 => .ok { st4 with infos := st4.infos + 1 }
        | .error e => .error e
  else .error Abort.indexOutOfRange

/-- The loop `for i := range r.Answer`, from answer record `i` on. -/
def mainLoop (cfg : Config) (conf : ClientConfig) (w : World) :
    List RR → Nat → State → Except Abort State
  | [], _, st => .ok st
  | RR.NS nameserver :: rest, i, st =>
    match processNS cfg conf w i nameserver { st with successServer := true } with
    | .ok st1 => mainLoop cfg conf w rest (i + 1) st1
    | .error e => .error e
  | _ :: rest, i, st => mainLoop cfg conf w rest (i + 1) { st with successServer := true }

/-- A Go slice expression `l[lo:hi]` on a slice whose capacity is its length. -/
def slice (l : List String) (lo hi : Nat) : Except Abort (List String) :=
  if lo ≤ hi ∧ hi ≤ l.length then .ok ((l.take hi).drop lo)
  else .error Abort.sliceBoundsOutOfRange

/-- The state before the loop: `make([]string, MAXERRS)`,
`make([]string, MAXINFOS)` and the counters at zero. -/
def initialState (trace : List Event) : State :=
  { brokenServers := 0, availableServers := 0, numNS := 0, errors := 0, infos := 0
    errorMessages := List.replicate MAXERRS ""
    infoMessages := List.replicate MAXINFOS ""
    successServer := true
    trace := trace }

/-- The end of `main`, after the loop: the verdict. -/
def verdict (cfg : Config) (st : State) : Except Abort Exit :=
  if st.availableServers = 0 then
    if !cfg.v4only && !cfg.v6only then
      .ok ⟨nagios.UNKNOWN, "Internal error: no available name servers, even without -4 and -6",
        [], false, cfg.Verbosity, st.trace⟩
    else
      .ok ⟨nagios.CRITICAL, "No name servers with the requested address family " ++
        (if cfg.v4only then "IPv4" else "IPv6"), [], false, cfg.Verbosity, st.trace⟩
  else if st.numNS = 0 then
    .ok ⟨nagios.CRITICAL, "No NS records for \"" ++ cfg.zone ++
      "\". It is probably a CNAME to a domain but not a zone", [], false, cfg.Verbosity, st.trace⟩
  else if st.brokenServers < cfg.warningThreshold then
    match slice st.infoMessages 0 st.infos with
    | .ok extra =>
      .ok ⟨nagios.OK, "Zone " ++ cfg.zone ++ " is fine" ++
        (if st.brokenServers > 0 then
          " (but " ++ toString st.brokenServers ++ " broken name servers)" else ""),
        extra, false, cfg.Verbosity, st.trace⟩
    | .error e => .error e
  else
    match st.errorMessages[0]?, slice st.errorMessages 1 st.errors with
    | some first, .ok extra =>
      .ok ⟨if st.brokenServers < cfg.criticalThreshold then nagios.WARNING else nagios.CRITICAL,
        first, extra, false, cfg.Verbosity, st.trace⟩
    | none, _ => .error Abort.indexOutOfRange
    | _, .error e => .error e

/-- Lines 160 to 358 of `main`: the zone's NS query, the per-server loop and
the verdict, once the flags are processed and the resolver configuration is
loaded. -/
def checkZone (cfg : Config) (conf : ClientConfig) (w : World) (trace : List Event) :
    Except Abort Exit :=
  let trace1 := trace ++ [Event.localQuery cfg.zone TypeNS]
  match localQuery conf w.nsExchange with
  | (none, err) =>
    .ok ⟨nagios.CRITICAL, "Cannot retrieve the list of name servers for " ++ cfg.zone ++ ": " ++
      fmtErr err, [], false, cfg.Verbosity, trace1⟩
  | (some r, _) =>
    if r.Rcode = RcodeNameError then
      .ok ⟨nagios.CRITICAL, "No such domain " ++ cfg.zone, [], false, cfg.Verbosity, trace1⟩
    else
      match mainLoop cfg conf w r.Answer 0 (initialState trace1) with
      | .ok st => verdict cfg st
      | .error e => .error e

/-- The package-level variables computed from the flags (lines 119 to 155). -/
def configOf (f : Flags) : Config :=
  { zone := Fqdn f.zoneP
    maxtries := if f.maxtriesP < 1 then 1 else f.maxtriesP
    warningThreshold := if f.warningThresholdP < 1 then 1 else f.warningThresholdP
    criticalThreshold := if f.criticalThresholdP < 1 then 1 else f.criticalThresholdP
    v4only := f.ipv4P
    v6only := f.ipv6P
    requireAllServers := f.allServersP
    Verbosity := if f.verbosityP > 3 then 3 else f.verbosityP }

/-- Go: `func main()`, from the point where `fs.Parse` has succeeded.
Until line 155 `nagios.Verbosity` still has its initial value `0`. -/
def main (f : Flags) (w : World) : Except Abort Exit :=
  if f.versionP then
    .ok ⟨nagios.UNKNOWN, "Version of plugin " ++ f.arg0 ++ " is BETA", [], false, 0, []⟩
  else if f.ipv4P && f.ipv6P then
    .ok ⟨nagios.UNKNOWN, "-4 and -6 are not compatible", [], false, 0, []⟩
  else if f.allServersP && (!f.ipv4P && !f.ipv6P) then
    .ok ⟨nagios.UNKNOWN, "-r does not make sense without -4 or -6", [], false, 0, []⟩
  else if f.zoneP.length = 0 then
    .ok ⟨nagios.UNKNOWN, "Usage: " ++ f.arg0 ++ " -H ZONE", [], false, 0, []⟩
  else if (configOf f).warningThreshold > (configOf f).criticalThreshold then
    .ok ⟨nagios.UNKNOWN, "Critical threshold must be superior to warning threshold",
      [], false, 0, []⟩
  else
    match w.conf with
    | none =>
      .ok ⟨nagios.UNKNOWN, "Cannot initialize the local resolver: " ++ fmtErr w.confErr,
        [], false, (configOf f).Verbosity, [Event.clientConfigFromFile]⟩
    | some conf => checkZone (configOf f) conf w [Event.clientConfigFromFile]


/-! ## The vocabulary of the specification

Declarative readings of the words the specification uses about one name
server; none of them is used by the embedding of `main` above. -/

/-- An address lookup failed: the local resolver gave no response, or a
response whose code is not success. -/
def lookupFailed (conf : ClientConfig) (exchange : Nat → Exchange) : Bool :=
  match localQuery conf exchange with
  | (none, _) => true
  | (some ra, _) => ra.Rcode != RcodeSuccess

/-- The addresses of one family that a successful lookup yields. -/
def resolved (conf : ClientConfig) (exchange : Nat → Exchange) (pick : RR → Option String) :
    List String :=
  match localQuery conf exchange with
  | (none, _) => []
  | (some ra, _) => if ra.Rcode = RcodeSuccess then ra.Answer.filterMap pick else []

/-- The addresses resolved for answer record `i` in the accepted families,
IPv4 first. -/
def addresses (cfg : Config) (conf : ClientConfig) (w : World) (i : Nat) : List String :=
  (if cfg.v6only then [] else resolved conf (w.aExchange i) pickA) ++
  (if cfg.v4only then [] else resolved conf (w.aaaaExchange i) pickAAAA)

/-- A requested address lookup of answer record `i` failed. -/
def anyLookupFailed (cfg : Config) (conf : ClientConfig) (w : World) (i : Nat) : Bool :=
  (!cfg.v6only && lookupFailed conf (w.aExchange i)) ||
  (!cfg.v4only && lookupFailed conf (w.aaaaExchange i))

/-- The zero-address policy rejects a set of addresses: it is empty, and
either both families are accepted or all servers are required. -/
def zeroAddressFailure (cfg : Config) (ips : List String) : Bool :=
  ips.isEmpty && (cfg.requireAllServers || (!cfg.v4only && !cfg.v6only))

/-- The direct SOA answer is one of the failures the source classifies: no
response, a code other than success, an empty answer section, or an SOA
record first without the authoritative flag. -/
def soaFailed (x : Exchange) : Bool :=
  match x.r with
  | none => true
  | some soa =>
    soa.Rcode != RcodeSuccess ||
    (match soa.Answer with
     | [] => true
     | RR.SOA _ :: _ => !soa.Authoritative
     | _ :: _ => false)

/-- The SOA check of address `j` of answer record `i` failed. -/
def soaCheckFailed (cfg : Config) (w : World) (i j : Nat) : Bool :=
  match testSoa (w.soaExchange i j) cfg.maxtries with
  | some (x, _) => soaFailed x
  | none => false

/-- At least one check failed for the name server of answer record `i`: an
address lookup, the zero-address policy, or the SOA check of one of its
addresses. -/
def serverFailed (cfg : Config) (conf : ClientConfig) (w : World) (i : Nat) : Bool :=
  anyLookupFailed cfg conf w i ||
  zeroAddressFailure cfg (addresses cfg conf w i) ||
  (List.range (addresses cfg conf w i).length).any (soaCheckFailed cfg w i)

/-- The name server of answer record `i` holds at least one resolved address
in the accepted families. -/
def hasResolvedAddress (cfg : Config) (conf : ClientConfig) (w : World) (i : Nat) : Bool :=
  !(addresses cfg conf w i).isEmpty

/-- Every requested lookup of answer record `i` succeeded and at least one
address was resolved. -/
def serverAvailable (cfg : Config) (conf : ClientConfig) (w : World) (i : Nat) : Bool :=
  !anyLookupFailed cfg conf w i && !(addresses cfg conf w i).isEmpty

/-- The number of NS records of `answers`, the first of which is answer
record `i`, that satisfy `p`. -/
def countNS (p : Nat → Bool) : List RR → Nat → Nat
  | [], _ => 0
  | RR.NS _ :: rest, i => (if p i then 1 else 0) + countNS p rest (i + 1)
  | _ :: rest, i => countNS p rest (i + 1)

/-- The number of NS records of `answers`. -/
def numNSOf : List RR → Nat
  | [] => 0
  | RR.NS _ :: rest => numNSOf rest + 1
  | _ :: rest => numNSOf rest

/-- The error buffer is well formed: it has its `MAXERRS` slots, `errors`
stays within them, and every broken server has left a line unless the buffer
is full. -/
def ErrInv (st : State) : Prop :=
  st.errorMessages.length = MAXERRS ∧ st.errors ≤ MAXERRS ∧
    (st.brokenServers ≤ st.errors ∨ st.errors = MAXERRS)

instance (st : State) : Decidable (ErrInv st) := by
  unfold ErrInv; infer_instance

/-- What two states of one iteration of the per-server loop have in common. -/
structure SameServer (st st1 : State) : Prop where
  numNS : st1.numNS = st.numNS
  availableServers : st1.availableServers = st.availableServers
  infos : st1.infos = st.infos
  infoLen : st1.infoMessages.length = st.infoMessages.length
  broken : st1.brokenServers + st1.successServer.toNat =
    st.brokenServers + st.successServer.toNat
  errorsMono : st.errors ≤ st1.errors
  errInv : ErrInv st → ErrInv st1

instance {ε α : Type} [DecidableEq ε] [DecidableEq α] : DecidableEq (Except ε α)
  | .ok a, .ok b => if h : a = b then isTrue (by rw [h]) else isFalse (fun h1 => h (by cases h1; rfl))
  | .error a, .error b =>
    if h : a = b then isTrue (by rw [h]) else isFalse (fun h1 => h (by cases h1; rfl))
  | .ok _, .error _ => isFalse (fun h => by cases h)
  | .error _, .ok _ => isFalse (fun h => by cases h)

/-- The flags pass every check that `main` makes before it loads the resolver
configuration (lines 109 to 152). -/
def flagsAccepted (f : Flags) : Bool :=
  !f.versionP && !(f.ipv4P && f.ipv6P) && !(f.allServersP && (!f.ipv4P && !f.ipv6P)) &&
  !decide (f.zoneP.length = 0) &&
  !decide ((configOf f).warningThreshold > (configOf f).criticalThreshold)

/-- The serial carried by a healthy SOA answer: a response with code success,
the authoritative flag set and an SOA record first. -/
def healthySerial (x : Exchange) : Option Nat :=
  match x.r with
  | none => none
  | some soa =>
    if soa.Rcode = RcodeSuccess ∧ soa.Authoritative = true then
      match soa.Answer with
      | RR.SOA serial :: _ => some serial
      | _ => none
    else none

/-- The serial with which address `j` of answer record `i` answers the SOA
query, when its answer is healthy. -/
def soaSerial (cfg : Config) (w : World) (i j : Nat) : Option Nat :=
  match testSoa (w.soaExchange i j) cfg.maxtries with
  | some (x, _) => healthySerial x
  | none => none

/-- The name server of answer record `i` is healthy: its requested lookups
succeed, it holds at least one address, and every address gives a healthy
SOA answer. -/
def healthyServer (cfg : Config) (conf : ClientConfig) (w : World) (i : Nat) : Bool :=
  serverAvailable cfg conf w i &&
  (List.range (addresses cfg conf w i).length).all (fun j => (soaSerial cfg w i j).isSome)

/-- Every NS record of `answers`, the first of which is answer record `i`,
names a healthy server. -/
def allHealthy (cfg : Config) (conf : ClientConfig) (w : World) : List RR → Nat → Bool
  | [], _ => true
  | RR.NS _ :: rest, i => healthyServer cfg conf w i && allHealthy cfg conf w rest (i + 1)
  | _ :: rest, i => allHealthy cfg conf w rest (i + 1)

/-- The texts `<address> (<serial>) ` of the addresses `ips` of answer record
`i`, the first of which is address `j`. -/
def infoSegments (cfg : Config) (w : World) (i : Nat) : List String → Nat → List String
  | [], _ => []
  | ip :: rest, j =>
    (ip ++ " (" ++ toString ((soaSerial cfg w i j).getD 0) ++ ") ") ::
      infoSegments cfg w i rest (j + 1)

/-- The informational line of a healthy server: `<nameserver> : ` followed by
the text of each of its addresses, IPv4 first. -/
def infoLine (cfg : Config) (conf : ClientConfig) (w : World) (i : Nat)
    (nameserver : String) : String :=
  (infoSegments cfg w i (addresses cfg conf w i) 0).foldl (fun line seg => line ++ seg)
    (nameserver ++ " : ")

/-- The informational lines of the NS records of `answers`, in order. -/
def expectedInfoLines (cfg : Config) (conf : ClientConfig) (w : World) :
    List RR → Nat → List String
  | [], _ => []
  | RR.NS nameserver :: rest, i =>
    infoLine cfg conf w i nameserver :: expectedInfoLines cfg conf w rest (i + 1)
  | _ :: rest, i => expectedInfoLines cfg conf w rest (i + 1)

/-- The error lines recorded so far, in recording order: the first `errors`
slots of the error buffer. -/
def recordedLines (st : State) : List String :=
  st.errorMessages.take st.errors

/-- From `st` to `st1` the error buffer keeps its size and the recorded lines
only grow at the end, by lines that are not empty. -/
def Records (st st1 : State) : Prop :=
  st.errorMessages.length = MAXERRS →
    st1.errorMessages.length = MAXERRS ∧
    ∃ new, recordedLines st1 = recordedLines st ++ new ∧ ∀ s ∈ new, s ≠ ""

/-! ## Concrete inputs -/

/-- Two timeouts, then an authoritative answer. -/
def retryExchanges : Nat → Exchange
  | 0 => ⟨none, some ⟨"read udp 192.0.2.1:53: i/o timeout", true⟩⟩
  | 1 => ⟨none, some ⟨"read udp 192.0.2.1:53: i/o timeout", true⟩⟩
  | _ => ⟨some ⟨0, true, [RR.SOA 2012010100]⟩, none⟩

/-- An authoritative answer with code success. -/
def okAnswer (ans : List RR) : Exchange :=
  ⟨some ⟨RcodeSuccess, true, ans⟩, none⟩

/-- A success answer without the authoritative flag. -/
def lameAnswer (ans : List RR) : Exchange :=
  ⟨some ⟨RcodeSuccess, false, ans⟩, none⟩

/-- An exchange that times out. -/
def timedOut : Exchange :=
  ⟨none, some ⟨"read udp: i/o timeout", true⟩⟩

def exampleConf : ClientConfig := ⟨["192.0.2.53"], "53"⟩

/-- No address-family filter, thresholds `-w 1 -c 2`. -/
def exampleCfg : Config :=
  { zone := "example.", maxtries := 3, warningThreshold := 1, criticalThreshold := 2
    v4only := false, v6only := false, requireAllServers := false, Verbosity := 0 }

def exampleAnswers : List RR := [RR.NS "ns1.example.", RR.NS "ns2.example."]

/-- Two name servers with one IPv4 and one IPv6 address each; the IPv4
address of the second one (answer record 1, address 0) answers without the
authoritative flag. -/
def oneLameWorld : World :=
  { conf := some exampleConf, confErr := none
    nsExchange := fun _ => okAnswer exampleAnswers
    aExchange := fun i _ => okAnswer [RR.A (if i = 0 then "192.0.2.1" else "192.0.2.2")]
    aaaaExchange := fun i _ =>
      okAnswer [RR.AAAA (if i = 0 then "2001:db8::1" else "2001:db8::2")]
    soaExchange := fun i j _ =>
      if i = 1 ∧ j = 0 then lameAnswer [RR.SOA 2012010100] else okAnswer [RR.SOA 2012010100]
    Rcode_str := fun _ => "" }

/-- The state in which the loop leaves `oneLameWorld`. -/
def oneLameFinal : State :=
  match mainLoop exampleCfg exampleConf oneLameWorld exampleAnswers 0 (initialState []) with
  | .ok st => st
  | .error _ => initialState []

/-- The command line `check_dns_soa -H example`. -/
def defaultFlags : Flags :=
  { arg0 := "check_dns_soa", zoneP := "example", versionP := false, verbosityP := 0
    warningThresholdP := 1, criticalThresholdP := 1, timeoutP := 3, maxtriesP := 3
    ipv4P := false, ipv6P := false, allServersP := false }

/-- The NS records `ns0.example.`, ..., `ns(n-1).example.`. -/
def manyAnswers (n : Nat) : List RR :=
  (List.range n).map (fun k => RR.NS ("ns" ++ toString k ++ ".example."))

/-- A zone with `n` name servers, all of them healthy: one IPv4 address
each, answering authoritatively. -/
def healthyWorld (n : Nat) : World :=
  { conf := some exampleConf, confErr := none
    nsExchange := fun _ => okAnswer (manyAnswers n)
    aExchange := fun _ _ => okAnswer [RR.A "192.0.2.1"]
    aaaaExchange := fun _ _ => okAnswer []
    soaExchange := fun _ _ _ => okAnswer [RR.SOA 2012010100]
    Rcode_str := fun _ => "" }

/-- The name is a CNAME and not a zone: the NS query is answered with code
success and a CNAME record (type 5), no NS record. -/
def cnameOnlyWorld : World :=
  { conf := some exampleConf, confErr := none
    nsExchange := fun _ => okAnswer [RR.other 5]
    aExchange := fun _ _ => okAnswer []
    aaaaExchange := fun _ _ => okAnswer []
    soaExchange := fun _ _ _ => okAnswer []
    Rcode_str := fun _ => "" }

/-- Two configured resolvers. -/
def twoResolvers : ClientConfig := ⟨["192.0.2.53", "192.0.2.54"], "53"⟩

/-- The first resolver times out, the second one answers. -/
def failoverExchanges : Nat → Exchange
  | 0 => timedOut
  | _ => okAnswer [RR.NS "ns1.example."]

/-- The first resolver answers with a server failure (code 2), the second one
with code success. -/
def servfailThenAnswer : Nat → Exchange
  | 0 => ⟨some ⟨2, false, []⟩, none⟩
  | _ => okAnswer [RR.NS "ns1.example."]

/-- Two name servers; both addresses of the first one time out on every
attempt, the second one is healthy. -/
def twoFailuresWorld : World :=
  { conf := some exampleConf, confErr := none
    nsExchange := fun _ => okAnswer exampleAnswers
    aExchange := fun _ _ => okAnswer [RR.A "192.0.2.1"]
    aaaaExchange := fun _ _ => okAnswer [RR.AAAA "2001:db8::1"]
    soaExchange := fun i _ _ => if i = 0 then timedOut else okAnswer [RR.SOA 2012010100]
    Rcode_str := fun _ => "" }

def twoFailuresFinal : State :=
  match mainLoop exampleCfg exampleConf twoFailuresWorld exampleAnswers 0 (initialState []) with
  | .ok st => st
  | .error _ => initialState []

/-- One name server whose A lookup gets no response, while its AAAA lookup
would yield an address that answers authoritatively. -/
def aFailsWorld : World :=
  { conf := some exampleConf, confErr := none
    nsExchange := fun _ => okAnswer [RR.NS "ns1.example."]
    aExchange := fun _ _ => timedOut
    aaaaExchange := fun _ _ => okAnswer [RR.AAAA "2001:db8::1"]
    soaExchange := fun _ _ _ => okAnswer [RR.SOA 2012010100]
    Rcode_str := fun _ => "" }

/-- One name server whose A lookup yields an address and whose AAAA lookup
gets no response. -/
def aaaaFailsWorld : World :=
  { conf := some exampleConf, confErr := none
    nsExchange := fun _ => okAnswer [RR.NS "ns1.example."]
    aExchange := fun _ _ => okAnswer [RR.A "192.0.2.1"]
    aaaaExchange := fun _ _ => timedOut
    soaExchange := fun _ _ _ => okAnswer [RR.SOA 2012010100]
    Rcode_str := fun _ => "" }

def aaaaFailsFinal : State :=
  match mainLoop exampleCfg exampleConf aaaaFailsWorld [RR.NS "ns1.example."] 0
      (initialState []) with
  | .ok st => st
  | .error _ => initialState []

/-- One name server with one address, whose SOA answer has code success, a
CNAME record (type 5) first and no authoritative flag. -/
def cnameFirstWorld : World :=
  { conf := some exampleConf, confErr := none
    nsExchange := fun _ => okAnswer [RR.NS "ns1.example."]
    aExchange := fun _ _ => okAnswer [RR.A "192.0.2.1"]
    aaaaExchange := fun _ _ => okAnswer []
    soaExchange := fun _ _ _ => lameAnswer [RR.other 5, RR.SOA 2012010100]
    Rcode_str := fun _ => "" }

/-- IPv4 only, all servers required (`-4 -r`), thresholds at 1. -/
def v4RequiredCfg : Config :=
  { zone := "example.", maxtries := 3, warningThreshold := 1, criticalThreshold := 1
    v4only := true, v6only := false, requireAllServers := true, Verbosity := 0 }

/-- Eleven name servers: the A lookups of the first ten get no response, the
A lookup of the last one succeeds without any A record. -/
def noIPv4World : World :=
  { conf := some exampleConf, confErr := none
    nsExchange := fun _ => okAnswer (manyAnswers 11)
    aExchange := fun i _ => if i < 10 then timedOut else okAnswer []
    aaaaExchange := fun _ _ => okAnswer [RR.AAAA "2001:db8::1"]
    soaExchange := fun _ _ _ => okAnswer [RR.SOA 2012010100]
    Rcode_str := fun _ => "" }

/-- A state with no available server, three broken ones and three error lines. -/
def noneAvailableState : State :=
  { initialState [] with brokenServers := 3, numNS := 3, errors := 3 }

/-- The command line `check_dns_soa -H example -w 1 -c 0`. -/
def criticalZeroFlags : Flags :=
  { defaultFlags with warningThresholdP := 1, criticalThresholdP := 0 }

/-- The command line `check_dns_soa -H example -w 3 -c 2`. -/
def invertedFlags : Flags :=
  { defaultFlags with warningThresholdP := 3, criticalThresholdP := 2 }

/-- The local resolver answers the NS query with a name error. -/
def nxdomainWorld : World :=
  { conf := some exampleConf, confErr := none
    nsExchange := fun _ => ⟨some ⟨RcodeNameError, false, []⟩, none⟩
    aExchange := fun _ _ => okAnswer [RR.A "192.0.2.1"]
    aaaaExchange := fun _ _ => okAnswer []
    soaExchange := fun _ _ _ => okAnswer [RR.SOA 2012010100]
    Rcode_str := fun _ => "" }

/-- Two healthy name servers with one IPv4 and one IPv6 address each. -/
def dualStackWorld : World :=
  { conf := some exampleConf, confErr := none
    nsExchange := fun _ => okAnswer exampleAnswers
    aExchange := fun i _ => okAnswer [RR.A (if i = 0 then "192.0.2.1" else "192.0.2.2")]
    aaaaExchange := fun i _ =>
      okAnswer [RR.AAAA (if i = 0 then "2001:db8::1" else "2001:db8::2")]
    soaExchange := fun _ _ _ => okAnswer [RR.SOA 2012010100]
    Rcode_str := fun _ => "" }

/-! ## testSoa -/

theorem isTimeout_of_err_none {x : Exchange} (h : x.err = none) : x.isTimeout = false := by
  simp [Exchange.isTimeout, h]

theorem isTimeout_of_err_some {x : Exchange} {e : GoError} (h : x.err = some e) :
    x.isTimeout = e.timeout := by
  simp [Exchange.isTimeout, h]

/-- The retry loop started after `c` timeouts: it ends after `n` exchanges in
all, every exchange before the last one timed out, and it goes on to the
limit only through timeouts. -/
theorem testSoaLoop_spec (exchange : Nat → Exchange) (tries : Nat) :
    ∀ fuel c, tries ≤ c + fuel → 0 < fuel →
      ∃ n, c < n ∧ (n ≤ tries ∨ n = c + 1) ∧
        testSoaLoop exchange tries fuel c c = some (exchange (n - 1), n) ∧
        (∀ k, c ≤ k → k < n - 1 → (exchange k).isTimeout = true) ∧
        (n < tries → (exchange (n - 1)).isTimeout = false) := by
  intro fuel
  induction fuel with
  | zero => intro c _ h; omega
  | succ fuel ih =>
    intro c hc _
    have stop : ((exchange c).isTimeout = false ∨ ¬ c + 1 < tries) →
        testSoaLoop exchange tries (fuel + 1) c c = some (exchange c, c + 1) →
        ∃ n, c < n ∧ (n ≤ tries ∨ n = c + 1) ∧
          testSoaLoop exchange tries (fuel + 1) c c = some (exchange (n - 1), n) ∧
          (∀ k, c ≤ k → k < n - 1 → (exchange k).isTimeout = true) ∧
          (n < tries → (exchange (n - 1)).isTimeout = false) := by
      intro hstop heq
      refine ⟨c + 1, by omega, Or.inr rfl, by simpa using heq, ?_, ?_⟩
      · intro k h1 h2; omega
      · intro hlt
        rcases hstop with h | h
        · simpa using h
        · omega
    cases herr : (exchange c).err with
    | none =>
      exact stop (Or.inl (isTimeout_of_err_none herr)) (by simp [testSoaLoop, herr])
    | some e =>
      by_cases ht : e.timeout = true
      · by_cases hlt : c + 1 < tries
        · obtain ⟨n, h1, h2, h3, h4, h5⟩ := ih (c + 1) (by omega) (by omega)
          refine ⟨n, by omega, ?_, ?_, ?_, h5⟩
          · rcases h2 with h2 | h2
            · exact Or.inl h2
            · exact Or.inl (by omega)
          · simp [testSoaLoop, herr, ht, hlt, h3]
          · intro k hk1 hk2
            by_cases hkc : k = c
            · subst hkc; rw [isTimeout_of_err_some herr]; exact ht
            · exact h4 k (by omega) hk2
        · exact stop (Or.inr hlt) (by simp [testSoaLoop, herr, ht, hlt])
      · have hf : e.timeout = false := by simpa using ht
        exact stop (Or.inl (by rw [isTimeout_of_err_some herr]; exact hf))
          (by simp [testSoaLoop, herr, hf])

/-- `testSoa` always returns: the fuel of the embedding is never exhausted. -/
theorem testSoa_some (exchange : Nat → Exchange) (tries : Nat) :
    ∃ n, testSoa exchange tries = some (exchange (n - 1), n) := by
  obtain ⟨n, _, _, h, _⟩ := testSoaLoop_spec exchange tries (tries + 1) 0 (by omega) (by omega)
  exact ⟨n, h⟩

/-- C4. For every `tries ≥ 1` and every sequence of exchange outcomes,
`testSoa` returns after `n` exchanges with `1 ≤ n ≤ tries`; every exchange
but the last one timed out (a further exchange is made only after a
timeout); it stops at the first outcome that is not a timeout; the value
returned is the outcome of the last exchange performed. In particular
`tries - 1` timeouts followed by a success return that success, and `tries`
timeouts in a row return the last timeout. -/
theorem testSoa_retries_only_on_timeout (exchange : Nat → Exchange) (tries : Nat)
    (htries : 1 ≤ tries) :
    ∃ n, 1 ≤ n ∧ n ≤ tries ∧
      testSoa exchange tries = some (exchange (n - 1), n) ∧
      (∀ k, k < n - 1 → (exchange k).isTimeout = true) ∧
      (∀ k, k < tries → (exchange k).isTimeout = false → n ≤ k + 1) ∧
      ((∀ k, k < tries - 1 → (exchange k).isTimeout = true) →
        (exchange (tries - 1)).err = none →
        testSoa exchange tries = some (exchange (tries - 1), tries)) ∧
      ((∀ k, k < tries → (exchange k).isTimeout = true) →
        testSoa exchange tries = some (exchange (tries - 1), tries)) := by
  obtain ⟨n, h1, h2, h3, h4, h5⟩ :=
    testSoaLoop_spec exchange tries (tries + 1) 0 (by omega) (by omega)
  have hn : n ≤ tries := by omega
  have hfirst : ∀ k, k < tries → (exchange k).isTimeout = false → n ≤ k + 1 := by
    intro k _ hk
    by_contra hcon
    have := h4 k (by omega) (by omega)
    rw [hk] at this
    exact Bool.noConfusion this
  have hall : (∀ k, k < tries - 1 → (exchange k).isTimeout = true) → n = tries := by
    intro hto
    by_contra hne
    have hlt : n < tries := by omega
    have h6 := h5 hlt
    rw [hto (n - 1) (by omega)] at h6
    exact Bool.noConfusion h6
  refine ⟨n, by omega, hn, h3, fun k hk => h4 k (by omega) hk, hfirst, ?_, ?_⟩
  · intro hto _
    have := hall hto
    subst this
    exact h3
  · intro hto
    have := hall (fun k hk => hto k (by omega))
    subst this
    exact h3

theorem testSoa_retries_only_on_timeout_witness :
    testSoa retryExchanges 3 = some (retryExchanges 2, 3) := by
  obtain ⟨n, h1, h2, h3, h4, h5, h6, h7⟩ :=
    testSoa_retries_only_on_timeout retryExchanges 3 (by decide)
  exact h6 (by intro k hk; interval_cases k <;> rfl) rfl


/-! ## localQuery -/

/-- The loop of `localQuery` goes past the resolvers that answer with a code
other than success and name error, and returns at the first resolver that
does not: with its response when it has one, with no response and its error
when it has none. -/
theorem localQueryFrom_returns_at (exchange : Nat → Exchange) :
    ∀ (servers : List String) (s k : Nat), k < servers.length →
      (∀ j, j < k → ∃ r, (exchange (s + j)).r = some r ∧
        r.Rcode ≠ RcodeNameError ∧ r.Rcode ≠ RcodeSuccess) →
      (∀ r, (exchange (s + k)).r = some r →
        r.Rcode = RcodeNameError ∨ r.Rcode = RcodeSuccess) →
      localQueryFrom exchange servers s = ((exchange (s + k)).r, (exchange (s + k)).err) := by
  intro servers
  induction servers with
  | nil => intro s k hk; simp at hk
  | cons server rest ih =>
    intro s k hk hskip hstop
    cases k with
    | zero =>
      simp only [Nat.add_zero] at hstop ⊢
      cases hr : (exchange s).r with
      | none => simp [localQueryFrom, hr]
      | some r =>
        rcases hstop r hr with h | h
        · simp [localQueryFrom, hr, h]
        · simp [localQueryFrom, hr, h]
    | succ k =>
      obtain ⟨r, hr, h1, h2⟩ := hskip 0 (Nat.succ_pos k)
      simp only [Nat.add_zero] at hr
      have hrec := ih (s + 1) k (by simpa using hk)
        (fun j hj => by
          have := hskip (j + 1) (by omega)
          rwa [show s + (j + 1) = s + 1 + j by omega] at this)
        (fun r hr => hstop r (by rwa [show s + (k + 1) = s + 1 + k by omega]))
      rw [show s + (k + 1) = s + 1 + k by omega]
      simp [localQueryFrom, hr, h1, h2, hrec]

/-- When every configured resolver answers with a code other than success
and name error, the loop of `localQuery` ends with no response and the error
`No name server to answer the question`. -/
theorem localQueryFrom_exhausted (exchange : Nat → Exchange) :
    ∀ (servers : List String) (s : Nat),
      (∀ j, j < servers.length → ∃ r, (exchange (s + j)).r = some r ∧
        r.Rcode ≠ RcodeNameError ∧ r.Rcode ≠ RcodeSuccess) →
      localQueryFrom exchange servers s =
        (none, some ⟨"No name server to answer the question", false⟩) := by
  intro servers
  induction servers with
  | nil => intro s _; rfl
  | cons server rest ih =>
    intro s hskip
    obtain ⟨r, hr, h1, h2⟩ := hskip 0 (by simp)
    simp only [Nat.add_zero] at hr
    have hrec := ih (s + 1) (fun j hj => by
      have := hskip (j + 1) (by simpa using hj)
      rwa [show s + (j + 1) = s + 1 + j by omega] at this)
    simp [localQueryFrom, hr, h1, h2, hrec]

/-! ## Effects of the failure block -/

theorem markBroken_frame (msg : String) (st : State) :
    (markBroken msg st).numNS = st.numNS ∧
    (markBroken msg st).availableServers = st.availableServers ∧
    (markBroken msg st).infos = st.infos ∧
    (markBroken msg st).infoMessages = st.infoMessages ∧
    (markBroken msg st).trace = st.trace ∧
    (markBroken msg st).successServer = false := by
  cases hs : st.successServer <;> by_cases he : st.errors < MAXERRS <;>
    simp [markBroken, hs, he]

theorem markBroken_brokenServers (msg : String) (st : State) :
    (markBroken msg st).brokenServers =
      st.brokenServers + (if st.successServer then 1 else 0) := by
  cases hs : st.successServer <;> by_cases he : st.errors < MAXERRS <;>
    simp [markBroken, hs, he]

theorem markBroken_errors (msg : String) (st : State) :
    (markBroken msg st).errors = (if st.errors < MAXERRS then st.errors + 1 else st.errors) ∧
    (markBroken msg st).errorMessages =
      (if st.errors < MAXERRS then st.errorMessages.set st.errors msg else st.errorMessages) := by
  cases hs : st.successServer <;> by_cases he : st.errors < MAXERRS <;>
    simp [markBroken, hs, he]


/-! ## States of one iteration -/

theorem SameServer.refl (st : State) : SameServer st st :=
  ⟨rfl, rfl, rfl, rfl, rfl, Nat.le_refl _, id⟩

theorem SameServer.trans {a b c : State} (h1 : SameServer a b) (h2 : SameServer b c) :
    SameServer a c :=
  ⟨h2.numNS.trans h1.numNS, h2.availableServers.trans h1.availableServers,
    h2.infos.trans h1.infos, h2.infoLen.trans h1.infoLen, h2.broken.trans h1.broken,
    Nat.le_trans h1.errorsMono h2.errorsMono, fun h => h2.errInv (h1.errInv h)⟩

theorem sameServer_trace (st : State) (t : List Event) :
    SameServer st { st with trace := t } :=
  ⟨rfl, rfl, rfl, rfl, rfl, Nat.le_refl _, id⟩

theorem sameServer_appendInfo (text : String) (st : State) :
    SameServer st (appendInfo text st) :=
  ⟨rfl, rfl, rfl, by simp [appendInfo], rfl, Nat.le_refl _, id⟩

theorem sameServer_markBroken (msg : String) (st : State) :
    SameServer st (markBroken msg st) := by
  obtain ⟨h1, h2, h3, h4, _, h6⟩ := markBroken_frame msg st
  have hb := markBroken_brokenServers msg st
  obtain ⟨he, hm⟩ := markBroken_errors msg st
  refine ⟨h1, h2, h3, by rw [h4], ?_, ?_, ?_⟩
  · rw [hb, h6]; cases st.successServer <;> simp
  · rw [he]; split_ifs <;> omega
  · intro hinv
    unfold ErrInv at hinv ⊢
    rw [hb, he, hm]
    obtain ⟨i1, i2, i3⟩ := hinv
    refine ⟨by split_ifs <;> simp [i1], by split_ifs <;> omega, ?_⟩
    cases st.successServer <;> split_ifs <;> omega

theorem markBroken_successServer (msg : String) (st : State) :
    (markBroken msg st).successServer = false :=
  (markBroken_frame msg st).2.2.2.2.2

/-! ## The SOA loop -/

/-- One address: the step returns, stays within the iteration, and the
server stays successful exactly when it was and the check passed. -/
theorem checkAddress_spec (cfg : Config) (w : World) (i : Nat) (nameserver : String)
    (j : Nat) (ip : String) (st : State) :
    ∃ st1, checkAddress cfg w i nameserver j ip st = .ok st1 ∧ SameServer st st1 ∧
      st1.successServer = (st.successServer && !soaCheckFailed cfg w i j) := by
  obtain ⟨n, hn⟩ := testSoa_some (w.soaExchange i j) cfg.maxtries
  have htr := sameServer_trace st (st.trace ++ [Event.testSoa (JoinHostPort ip "53")])
  have broken : ∀ msg, soaCheckFailed cfg w i j = true →
      checkAddress cfg w i nameserver j ip st = .ok (markBroken msg
        { st with trace := st.trace ++ [Event.testSoa (JoinHostPort ip "53")] }) →
      ∃ st1, checkAddress cfg w i nameserver j ip st = .ok st1 ∧ SameServer st st1 ∧
        st1.successServer = (st.successServer && !soaCheckFailed cfg w i j) := by
    intro msg hf h
    exact ⟨_, h, htr.trans (sameServer_markBroken _ _), by simp [hf, markBroken_successServer]⟩
  cases hr : (w.soaExchange i j (n - 1)).r with
  | none =>
    exact broken ("Cannot get SOA from " ++ nameserver ++ "/" ++ ip ++ ": " ++
        fmtErr (w.soaExchange i j (n - 1)).err)
      (by simp [soaCheckFailed, soaFailed, hn, hr]) (by simp [checkAddress, hn, hr])
  | some soa =>
    by_cases hrc : soa.Rcode = RcodeSuccess
    · cases hans : soa.Answer with
      | nil =>
        exact broken ("Cannot get SOA from " ++ nameserver ++ "/" ++ ip ++ ": 0 answer ")
          (by simp [soaCheckFailed, soaFailed, hn, hr, hans])
          (by simp [checkAddress, hn, hr, hrc, hans])
      | cons first rest =>
        have passed : ∀ st1, soaCheckFailed cfg w i j = false →
            checkAddress cfg w i nameserver j ip st = .ok st1 →
            SameServer st st1 → st1.successServer = st.successServer →
            ∃ st1, checkAddress cfg w i nameserver j ip st = .ok st1 ∧ SameServer st st1 ∧
              st1.successServer = (st.successServer && !soaCheckFailed cfg w i j) := by
          intro st1 hf h hs hb
          exact ⟨st1, h, hs, by simp [hf, hb]⟩
        cases first with
        | SOA serial =>
          cases hauth : soa.Authoritative with
          | true =>
            exact passed _ (by simp [soaCheckFailed, soaFailed, hn, hr, hrc, hans, hauth])
              (by simp [checkAddress, hn, hr, hrc, hans, hauth]; rfl)
              (htr.trans (sameServer_appendInfo _ _)) rfl
          | false =>
            exact broken (nameserver ++ "/" ++ ip ++ " is not authoritative")
              (by simp [soaCheckFailed, soaFailed, hn, hr, hans, hauth])
              (by simp [checkAddress, hn, hr, hrc, hans, hauth])
        | NS _ =>
          exact passed _ (by simp [soaCheckFailed, soaFailed, hn, hr, hrc, hans])
            (by simp [checkAddress, hn, hr, hrc, hans]) htr rfl
        | A _ =>
          exact passed _ (by simp [soaCheckFailed, soaFailed, hn, hr, hrc, hans])
            (by simp [checkAddress, hn, hr, hrc, hans]) htr rfl
        | AAAA _ =>
          exact passed _ (by simp [soaCheckFailed, soaFailed, hn, hr, hrc, hans])
            (by simp [checkAddress, hn, hr, hrc, hans]) htr rfl
        | other _ =>
          exact passed _ (by simp [soaCheckFailed, soaFailed, hn, hr, hrc, hans])
            (by simp [checkAddress, hn, hr, hrc, hans]) htr rfl
    · exact broken (ip ++ " (" ++ w.Rcode_str soa.Rcode ++ ") ")
        (by simp [soaCheckFailed, soaFailed, hn, hr, hrc])
        (by simp [checkAddress, hn, hr, hrc])

/-- The SOA loop over the addresses `j0, j0 + 1, ...` of one server. -/
theorem checkAddresses_spec (cfg : Config) (w : World) (i : Nat) (nameserver : String) :
    ∀ (ips : List String) (j0 : Nat) (st : State),
      ∃ st1, checkAddresses cfg w i nameserver ips j0 st = .ok st1 ∧ SameServer st st1 ∧
        st1.successServer =
          (st.successServer && !(List.range' j0 ips.length).any (soaCheckFailed cfg w i)) := by
  intro ips
  induction ips with
  | nil => intro j0 st; exact ⟨st, rfl, SameServer.refl st, by simp⟩
  | cons ip rest ih =>
    intro j0 st
    obtain ⟨st1, h1, s1, b1⟩ := checkAddress_spec cfg w i nameserver j0 ip st
    obtain ⟨st2, h2, s2, b2⟩ := ih (j0 + 1) st1
    refine ⟨st2, by simp [checkAddresses, h1, h2], s1.trans s2, ?_⟩
    rw [b2, b1]
    simp [List.range'_succ, Bool.and_assoc]

/-! ## The address lookups -/

theorem lookupFamily_spec (conf : ClientConfig) (w : World) (exchange : Nat → Exchange)
    (family : String) (qtype : Nat) (pick : RR → Option String) (nameserver : String)
    (st : State) :
    (lookupFailed conf exchange = true →
      ∃ detail, lookupFamily conf w exchange family qtype pick nameserver st =
        (markBroken ("Error getting the " ++ family ++ " address of " ++ nameserver ++ ": " ++
            detail)
          { st with trace := st.trace ++ [Event.localQuery nameserver qtype] }, none)) ∧
    (lookupFailed conf exchange = false →
      lookupFamily conf w exchange family qtype pick nameserver st =
        ({ st with trace := st.trace ++ [Event.localQuery nameserver qtype] },
          some (resolved conf exchange pick))) := by
  unfold lookupFamily lookupFailed resolved
  rcases hq : localQuery conf exchange with ⟨_ | ra, err⟩
  · exact ⟨fun _ => ⟨fmtErr err, rfl⟩, fun h => by simp at h⟩
  · by_cases hrc : ra.Rcode = RcodeSuccess
    · exact ⟨fun h => by simp [hrc] at h, fun _ => by simp [hrc]⟩
    · exact ⟨fun _ => ⟨w.Rcode_str ra.Rcode, by simp [hrc]⟩, fun h => by simp [hrc] at h⟩

/-- One of the two lookup blocks together with its guard. -/
theorem guardedLookup_spec (skip : Bool) (conf : ClientConfig) (w : World)
    (exchange : Nat → Exchange) (family : String) (qtype : Nat) (pick : RR → Option String)
    (nameserver : String) (st : State) :
    ((!skip && lookupFailed conf exchange) = true →
      ∃ msg t, (if !skip then lookupFamily conf w exchange family qtype pick nameserver st
          else (st, some [])) = (markBroken msg { st with trace := t }, none)) ∧
    ((!skip && lookupFailed conf exchange) = false →
      ∃ t, (if !skip then lookupFamily conf w exchange family qtype pick nameserver st
          else (st, some [])) =
        ({ st with trace := t }, some (if skip then [] else resolved conf exchange pick))) := by
  have h := lookupFamily_spec conf w exchange family qtype pick nameserver st
  cases skip
  · cases hf : lookupFailed conf exchange
    · exact ⟨fun h0 => by simp at h0, fun _ => ⟨_, by simpa using h.2 hf⟩⟩
    · obtain ⟨detail, hm⟩ := h.1 hf
      exact ⟨fun _ => ⟨"Error getting the " ++ family ++ " address of " ++ nameserver ++ ": " ++
        detail, _, by simpa using hm⟩, fun h0 => by simp at h0⟩
  · exact ⟨fun h0 => by simp at h0, fun _ => ⟨st.trace, by simp⟩⟩

/-- The two lookups of one server: either a requested lookup failed, the
server is marked and the iteration is abandoned, or `ips` holds the
addresses of the accepted families. Only the trace changes otherwise. -/
theorem resolveAddresses_spec (cfg : Config) (conf : ClientConfig) (w : World) (i : Nat)
    (nameserver : String) (st : State) :
    (anyLookupFailed cfg conf w i = true →
      ∃ msg t, resolveAddresses cfg conf w i nameserver st =
        (markBroken msg { st with trace := t }, none)) ∧
    (anyLookupFailed cfg conf w i = false →
      ∃ t, resolveAddresses cfg conf w i nameserver st =
        ({ st with trace := t }, some (addresses cfg conf w i))) := by
  have hA := guardedLookup_spec cfg.v6only conf w (w.aExchange i) "IPv4" TypeA pickA
    nameserver st
  unfold resolveAddresses anyLookupFailed addresses
  cases hfa : (!cfg.v6only && lookupFailed conf (w.aExchange i))
  · obtain ⟨t1, h1⟩ := hA.2 hfa
    have hB := guardedLookup_spec cfg.v4only conf w (w.aaaaExchange i) "IPv6" TypeAAAA
      pickAAAA nameserver { st with trace := t1 }
    rw [h1]
    cases hfb : (!cfg.v4only && lookupFailed conf (w.aaaaExchange i))
    · obtain ⟨t2, h2⟩ := hB.2 hfb
      simp only [h2]
      exact ⟨fun h0 => by simp at h0, fun _ => ⟨t2, rfl⟩⟩
    · obtain ⟨msg, t2, h2⟩ := hB.1 hfb
      simp only [h2]
      exact ⟨fun _ => ⟨msg, t2, rfl⟩, fun h0 => by simp at h0⟩
  · obtain ⟨msg, t1, h1⟩ := hA.1 hfa
    rw [h1]
    exact ⟨fun _ => ⟨msg, t1, rfl⟩, fun h0 => by simp at h0⟩

/-! ## One name server -/

/-- The bounds check of `infoMessages[infos] = ...` fails: the run panics. -/
theorem processNS_panic (cfg : Config) (conf : ClientConfig) (w : World) (i : Nat)
    (nameserver : String) (st : State) (h : st.infoMessages.length ≤ st.infos) :
    processNS cfg conf w i nameserver st = .error Abort.indexOutOfRange := by
  unfold processNS
  simp only []
  rw [if_neg (by omega)]

/-- One iteration on an NS record whose informational slot exists. -/
theorem processNS_spec (cfg : Config) (conf : ClientConfig) (w : World) (i : Nat)
    (nameserver : String) (st : State) (hs : st.successServer = true)
    (hi : st.infos < st.infoMessages.length) :
    ∃ st1, processNS cfg conf w i nameserver st = .ok st1 ∧
      st1.numNS = st.numNS + 1 ∧
      st1.brokenServers = st.brokenServers + (if serverFailed cfg conf w i then 1 else 0) ∧
      st1.availableServers =
        st.availableServers + (if serverAvailable cfg conf w i then 1 else 0) ∧
      st.infos ≤ st1.infos ∧ st1.infos ≤ st.infos + 1 ∧
      st1.infoMessages.length = st.infoMessages.length ∧
      st.errors ≤ st1.errors ∧ (ErrInv st → ErrInv st1) := by
  have hR := resolveAddresses_spec cfg conf w i nameserver
    { st with numNS := st.numNS + 1,
              infoMessages := st.infoMessages.set st.infos (nameserver ++ " : ") }
  unfold processNS
  simp only []
  rw [if_pos hi]
  unfold serverFailed serverAvailable
  cases hf : anyLookupFailed cfg conf w i
  · obtain ⟨t, ht⟩ := hR.2 hf
    rw [ht]
    simp only []
    by_cases hlen : (addresses cfg conf w i).length = 0
    · have hnil : addresses cfg conf w i = [] := List.length_eq_zero.mp hlen
      rw [if_pos hlen]
      cases hp : (cfg.requireAllServers || (!cfg.v4only && !cfg.v6only))
      · refine ⟨_, by simp [hnil, checkAddresses]; rfl, ?_⟩
        simp [hnil, zeroAddressFailure, hp]
        exact fun h => h
      · have hm := sameServer_markBroken
          ("No IP" ++ ipVersion cfg ++ " address for this server " ++ nameserver)
          { st with numNS := st.numNS + 1,
                    infoMessages := st.infoMessages.set st.infos (nameserver ++ " : "),
                    trace := t }
        refine ⟨_, by simp; rfl, ?_⟩
        have hb := hm.broken
        rw [markBroken_successServer] at hb
        refine ⟨hm.numNS, by simpa [hnil, zeroAddressFailure, hp, hs] using hb,
          ?_, ?_, ?_, ?_, ?_, ?_⟩
        · simpa [hnil] using hm.availableServers
        · exact Nat.le_of_eq hm.infos.symm
        · rw [hm.infos]; exact Nat.le_succ _
        · simpa using hm.infoLen
        · exact hm.errorsMono
        · exact fun h => hm.errInv h
    · rw [if_neg hlen]
      have hne : addresses cfg conf w i ≠ [] := fun h => hlen (by simp [h])
      obtain ⟨st4, h4, s4, b4⟩ := checkAddresses_spec cfg w i nameserver
        (addresses cfg conf w i) 0
        { st with numNS := st.numNS + 1,
                  infoMessages := st.infoMessages.set st.infos (nameserver ++ " : "),
                  trace := t, availableServers := st.availableServers + 1 }
      rw [h4]
      refine ⟨_, rfl, s4.numNS, ?_, ?_, ?_, ?_, ?_, ?_, ?_⟩
      · have hb := s4.broken
        rw [b4] at hb
        simp only [hs, Bool.true_and] at hb
        rw [← List.range_eq_range'] at hb
        have hz : zeroAddressFailure cfg (addresses cfg conf w i) = false := by
          simp [zeroAddressFailure, hne]
        simp only [hz, Bool.false_or]
        cases hany : (List.range (addresses cfg conf w i).length).any (soaCheckFailed cfg w i)
        · simp [hany] at hb ⊢; omega
        · simp [hany] at hb ⊢; omega
      · simpa [hne] using s4.availableServers
      · simp [s4.infos]
      · simp [s4.infos]
      · simpa using s4.infoLen
      · exact s4.errorsMono
      · exact fun h => s4.errInv h
  · obtain ⟨msg, t, ht⟩ := hR.1 hf
    rw [ht]
    have hm := sameServer_markBroken msg
      { st with numNS := st.numNS + 1,
                infoMessages := st.infoMessages.set st.infos (nameserver ++ " : "),
                trace := t }
    refine ⟨_, rfl, hm.numNS, ?_, ?_, ?_, ?_, ?_, ?_, ?_⟩
    · have hb := hm.broken
      rw [markBroken_successServer] at hb
      simpa [hs] using hb
    · simpa using hm.availableServers
    · exact Nat.le_of_eq hm.infos.symm
    · rw [hm.infos]; exact Nat.le_succ _
    · simpa using hm.infoLen
    · exact hm.errorsMono
    · exact fun h => hm.errInv h

/-! ## The loop over the answer records -/

/-- What a completed run of the loop from answer record `i` establishes. -/
theorem mainLoop_spec (cfg : Config) (conf : ClientConfig) (w : World) :
    ∀ (answers : List RR) (i : Nat) (st st1 : State),
      mainLoop cfg conf w answers i st = .ok st1 →
      st1.numNS = st.numNS + numNSOf answers ∧
      st1.brokenServers = st.brokenServers + countNS (serverFailed cfg conf w) answers i ∧
      st1.availableServers =
        st.availableServers + countNS (serverAvailable cfg conf w) answers i ∧
      st1.infoMessages.length = st.infoMessages.length ∧
      (st.infos ≤ st.infoMessages.length → st1.infos ≤ st1.infoMessages.length) ∧
      st.errors ≤ st1.errors ∧ (ErrInv st → ErrInv st1) := by
  intro answers
  induction answers with
  | nil =>
    intro i st st1 h
    simp only [mainLoop, Except.ok.injEq] at h
    subst h
    simp [numNSOf, countNS]
  | cons ans rest ih =>
    intro i st st1 h
    have other : mainLoop cfg conf w rest (i + 1) { st with successServer := true } = .ok st1 →
        numNSOf (ans :: rest) = numNSOf rest →
        (∀ p, countNS p (ans :: rest) i = countNS p rest (i + 1)) →
        st1.numNS = st.numNS + numNSOf (ans :: rest) ∧
        st1.brokenServers =
          st.brokenServers + countNS (serverFailed cfg conf w) (ans :: rest) i ∧
        st1.availableServers =
          st.availableServers + countNS (serverAvailable cfg conf w) (ans :: rest) i ∧
        st1.infoMessages.length = st.infoMessages.length ∧
        (st.infos ≤ st.infoMessages.length → st1.infos ≤ st1.infoMessages.length) ∧
        st.errors ≤ st1.errors ∧ (ErrInv st → ErrInv st1) := by
      intro h' hn hc
      have := ih (i + 1) _ st1 h'
      rw [hn, hc, hc]
      exact this
    cases ans with
    | NS nameserver =>
      by_cases hi : st.infos < st.infoMessages.length
      · obtain ⟨st2, h2, n2, b2, a2, i2, i2', l2, e2, inv2⟩ :=
          processNS_spec cfg conf w i nameserver { st with successServer := true } rfl hi
        simp only [mainLoop, h2] at h
        obtain ⟨n3, b3, a3, l3, i3, e3, inv3⟩ := ih (i + 1) st2 st1 h
        simp only [numNSOf, countNS]
        simp only [] at n2 b2 a2 i2 i2' l2 e2 inv2
        refine ⟨by omega, by omega, by omega, by omega, ?_, by omega, fun h0 => inv3 (inv2 h0)⟩
        intro _
        exact i3 (by omega)
      · rw [mainLoop, processNS_panic cfg conf w i nameserver _ (by simpa using hi)] at h
        exact Except.noConfusion h
    | A a => exact other (by simpa [mainLoop] using h) rfl (fun p => rfl)
    | AAAA a => exact other (by simpa [mainLoop] using h) rfl (fun p => rfl)
    | SOA s => exact other (by simpa [mainLoop] using h) rfl (fun p => rfl)
    | other t => exact other (by simpa [mainLoop] using h) rfl (fun p => rfl)

/-- The loop completes whenever the informational buffer has a slot for
every NS record still to come. -/
theorem mainLoop_returns (cfg : Config) (conf : ClientConfig) (w : World) :
    ∀ (answers : List RR) (i : Nat) (st : State),
      st.infos + numNSOf answers ≤ st.infoMessages.length →
      ∃ st1, mainLoop cfg conf w answers i st = .ok st1 := by
  intro answers
  induction answers with
  | nil => intro i st _; exact ⟨st, rfl⟩
  | cons ans rest ih =>
    intro i st hlen
    cases ans with
    | NS nameserver =>
      simp only [numNSOf] at hlen
      obtain ⟨st2, h2, _, _, _, _, i2, l2, _, _⟩ :=
        processNS_spec cfg conf w i nameserver { st with successServer := true } rfl
          (by simp only []; omega)
      simp only [] at i2 l2
      obtain ⟨st3, h3⟩ := ih (i + 1) st2 (by omega)
      exact ⟨st3, by simp only [mainLoop, h2, h3]⟩
    | A a => simpa [mainLoop] using ih (i + 1) { st with successServer := true } hlen
    | AAAA a => simpa [mainLoop] using ih (i + 1) { st with successServer := true } hlen
    | SOA s => simpa [mainLoop] using ih (i + 1) { st with successServer := true } hlen
    | other t => simpa [mainLoop] using ih (i + 1) { st with successServer := true } hlen

theorem countNS_le_numNSOf (p : Nat → Bool) :
    ∀ (answers : List RR) (i : Nat), countNS p answers i ≤ numNSOf answers := by
  intro answers
  induction answers with
  | nil => intro i; simp [countNS, numNSOf]
  | cons ans rest ih =>
    intro i
    cases ans <;> simp only [countNS, numNSOf]
    · have := ih (i + 1); split_ifs <;> omega
    all_goals exact ih (i + 1)

theorem errInv_initialState (trace : List Event) : ErrInv (initialState trace) := by
  simp [ErrInv, initialState, MAXERRS]

theorem countNS_mono (p q : Nat → Bool) (h : ∀ i, p i = true → q i = true) :
    ∀ (answers : List RR) (i : Nat), countNS p answers i ≤ countNS q answers i := by
  intro answers
  induction answers with
  | nil => intro i; simp [countNS]
  | cons ans rest ih =>
    intro i
    cases ans <;> simp only [countNS]
    · have hr := ih (i + 1)
      cases hp : p i
      · simp only [Bool.false_eq_true, if_false]
        split_ifs <;> omega
      · simp only [h i hp, if_true]
        omega
    all_goals exact ih (i + 1)

/-! ## The verdict -/

theorem slice_ok (l : List String) (lo hi : Nat) (h1 : lo ≤ hi) (h2 : hi ≤ l.length) :
    slice l lo hi = .ok ((l.take hi).drop lo) := by
  unfold slice
  rw [if_pos ⟨h1, h2⟩]

/-- C1. For every run of the loop that ends with `availableServers > 0` and
`numNS > 0` under thresholds `1 ≤ warning ≤ critical`, the verdict is
reached; it is OK exactly when `brokenServers < warning`, WARNING exactly
when `warning ≤ brokenServers < critical`, CRITICAL exactly when
`brokenServers ≥ critical`, and the exit code of the process is 0, 1 and 2
respectively. -/
theorem verdict_follows_thresholds (cfg : Config) (conf : ClientConfig) (w : World)
    (answers : List RR) (trace : List Event) (st : State)
    (hw : 1 ≤ cfg.warningThreshold) (hwc : cfg.warningThreshold ≤ cfg.criticalThreshold)
    (hrun : mainLoop cfg conf w answers 0 (initialState trace) = .ok st)
    (hav : 0 < st.availableServers) (hns : 0 < st.numNS) :
    ∃ e, verdict cfg st = .ok e ∧
      (e.status = nagios.OK ↔ st.brokenServers < cfg.warningThreshold) ∧
      (e.status = nagios.WARNING ↔
        cfg.warningThreshold ≤ st.brokenServers ∧ st.brokenServers < cfg.criticalThreshold) ∧
      (e.status = nagios.CRITICAL ↔ cfg.criticalThreshold ≤ st.brokenServers) ∧
      (e.process.exitCode = 0 ↔ st.brokenServers < cfg.warningThreshold) ∧
      (e.process.exitCode = 1 ↔
        cfg.warningThreshold ≤ st.brokenServers ∧ st.brokenServers < cfg.criticalThreshold) ∧
      (e.process.exitCode = 2 ↔ cfg.criticalThreshold ≤ st.brokenServers) := by
  obtain ⟨_, _, _, hlen, hinfos, _, hinv⟩ := mainLoop_spec cfg conf w answers 0 _ st hrun
  obtain ⟨elen, ecap, ebrk⟩ := hinv (errInv_initialState trace)
  have hinfos' := hinfos (by simp [initialState])
  unfold verdict
  rw [if_neg (by omega), if_neg (by omega)]
  by_cases hb : st.brokenServers < cfg.warningThreshold
  · rw [if_pos hb, slice_ok _ _ _ (Nat.zero_le _) hinfos']
    refine ⟨_, rfl, ?_⟩
    simp only [Exit.process, nagios.ExitStatus, nagios.OK, nagios.WARNING, nagios.CRITICAL]
    refine ⟨by simp [hb], ?_, ?_, by simp [hb], ?_, ?_⟩ <;>
      simp <;> omega
  · rw [if_neg hb]
    have hfirst : ∃ first, st.errorMessages[0]? = some first := by
      cases hl : st.errorMessages with
      | nil => rw [hl] at elen; simp [MAXERRS] at elen
      | cons first rest => exact ⟨first, by simp⟩
    obtain ⟨first, hfirst⟩ := hfirst
    have herr : 1 ≤ st.errors := by
      rcases ebrk with h | h
      · omega
      · rw [h]; decide
    rw [hfirst, slice_ok _ _ _ herr (by omega)]
    refine ⟨_, rfl, ?_⟩
    simp only [Exit.process, nagios.ExitStatus, nagios.OK, nagios.WARNING, nagios.CRITICAL]
    by_cases hc : st.brokenServers < cfg.criticalThreshold
    · rw [if_pos hc]
      refine ⟨?_, ?_, ?_, ?_, ?_, ?_⟩ <;> simp <;> omega
    · rw [if_neg hc]
      refine ⟨?_, ?_, ?_, ?_, ?_, ?_⟩ <;> simp <;> omega

theorem verdict_follows_thresholds_witness :
    ∃ e, verdict exampleCfg oneLameFinal = .ok e ∧ e.status = nagios.WARNING ∧
      e.process.exitCode = 1 ∧ oneLameFinal.brokenServers = 1 := by
  obtain ⟨e, h, _, h2, _, _, h5, _⟩ :=
    verdict_follows_thresholds exampleCfg exampleConf oneLameWorld exampleAnswers []
      oneLameFinal (by decide) (by decide) (by rfl) (by decide) (by decide)
  exact ⟨e, h, h2.2 (by decide), h5.2 (by decide), by decide⟩

/-- A run with no NS record in the answer never reaches the branch
`numNS == 0`: the loop leaves `availableServers` at zero, and the test
`availableServers == 0` comes first. -/
theorem verdict_without_ns_record (cfg : Config) (conf : ClientConfig) (w : World)
    (answers : List RR) (trace : List Event) (st : State)
    (hrun : mainLoop cfg conf w answers 0 (initialState trace) = .ok st)
    (hns : numNSOf answers = 0) :
    st.availableServers = 0 ∧
    verdict cfg st = .ok
      (if !cfg.v4only && !cfg.v6only then
        ⟨nagios.UNKNOWN, "Internal error: no available name servers, even without -4 and -6",
          [], false, cfg.Verbosity, st.trace⟩
      else
        ⟨nagios.CRITICAL, "No name servers with the requested address family " ++
          (if cfg.v4only then "IPv4" else "IPv6"), [], false, cfg.Verbosity, st.trace⟩) := by
  obtain ⟨_, _, hav, _⟩ := mainLoop_spec cfg conf w answers 0 _ st hrun
  have hle := countNS_le_numNSOf (serverAvailable cfg conf w) answers 0
  have h0 : st.availableServers = 0 := by
    rw [hav]; simp only [initialState]; omega
  refine ⟨h0, ?_⟩
  unfold verdict
  rw [if_pos h0]
  split_ifs <;> rfl

/-- C2. The code at the failing input: the zone's NS query is answered with
code success and no NS record (`numNS == 0`). With no address-family filter
the run ends UNKNOWN with the headline `Internal error: no available name
servers, even without -4 and -6`; with `-4` and with `-6` it ends CRITICAL
with the headline `No name servers with the requested address family`. The
headline `No NS records for` is not produced. -/
theorem no_ns_record_is_reported_as_unavailable :
    main defaultFlags cnameOnlyWorld = .ok
      ⟨nagios.UNKNOWN, "Internal error: no available name servers, even without -4 and -6",
        [], false, 0, [Event.clientConfigFromFile, Event.localQuery "example." TypeNS]⟩ ∧
    main { defaultFlags with ipv4P := true } cnameOnlyWorld = .ok
      ⟨nagios.CRITICAL, "No name servers with the requested address family IPv4",
        [], false, 0, [Event.clientConfigFromFile, Event.localQuery "example." TypeNS]⟩ ∧
    main { defaultFlags with ipv6P := true } cnameOnlyWorld = .ok
      ⟨nagios.CRITICAL, "No name servers with the requested address family IPv6",
        [], false, 0, [Event.clientConfigFromFile, Event.localQuery "example." TypeNS]⟩ := by
  refine ⟨?_, ?_, ?_⟩ <;> decide

/-! ## The tallies -/

/-- C3. For every answer section and every combination of responses: the
loop completes when the answer holds at most `MAXINFOS` NS records, and
whenever it completes, the final `brokenServers` is the number of NS records
for which at least one check failed (an address lookup, the zero-address
policy, or the SOA check of one of its addresses), each such server counting
for exactly 1; `numNS` is the number of NS records, and
`brokenServers ≤ numNS`. -/
theorem brokenServers_counts_failed_servers (cfg : Config) (conf : ClientConfig) (w : World)
    (answers : List RR) (trace : List Event) :
    (numNSOf answers ≤ MAXINFOS →
      ∃ st, mainLoop cfg conf w answers 0 (initialState trace) = .ok st) ∧
    ∀ st, mainLoop cfg conf w answers 0 (initialState trace) = .ok st →
      st.brokenServers = countNS (serverFailed cfg conf w) answers 0 ∧
      st.numNS = numNSOf answers ∧
      st.brokenServers ≤ st.numNS := by
  refine ⟨fun h => mainLoop_returns cfg conf w answers 0 _ (by simpa [initialState] using h), ?_⟩
  intro st hrun
  obtain ⟨hn, hb, _⟩ := mainLoop_spec cfg conf w answers 0 _ st hrun
  have hle := countNS_le_numNSOf (serverFailed cfg conf w) answers 0
  simp only [initialState, Nat.zero_add] at hn hb
  exact ⟨hb, hn, by omega⟩

theorem brokenServers_counts_failed_servers_witness :
    mainLoop exampleCfg exampleConf twoFailuresWorld exampleAnswers 0 (initialState []) =
      .ok twoFailuresFinal ∧
    soaCheckFailed exampleCfg twoFailuresWorld 0 0 = true ∧
    soaCheckFailed exampleCfg twoFailuresWorld 0 1 = true ∧
    twoFailuresFinal.brokenServers = 1 ∧
    twoFailuresFinal.brokenServers =
      countNS (serverFailed exampleCfg exampleConf twoFailuresWorld) exampleAnswers 0 ∧
    twoFailuresFinal.brokenServers ≤ twoFailuresFinal.numNS :=
  have h := (brokenServers_counts_failed_servers exampleCfg exampleConf twoFailuresWorld
    exampleAnswers []).2 twoFailuresFinal (by rfl)
  ⟨by rfl, by decide, by decide, by decide, h.1, h.2.2⟩

/-- The counterexample of C5: two resolvers are configured, the exchange with
the first one times out and the second one would answer with code success.
`localQuery` returns at the first resolver, with no response and the
time-out error; the second resolver is not tried. -/
theorem localQuery_returns_at_failed_resolver :
    (failoverExchanges 1).r = some ⟨RcodeSuccess, true, [RR.NS "ns1.example."]⟩ ∧
    localQuery twoResolvers failoverExchanges =
      (none, some ⟨"read udp: i/o timeout", true⟩) := by
  decide

/-- C5, amended. For every configured resolver list and every per-resolver
exchange outcome, `localQuery` goes past the resolvers that answer with a
code other than success and name error, and returns at the first resolver,
in list order, that does not: with its response when that response has code
success or name error, and with no response and the error of that exchange
when the exchange yields no response. When every resolver of the list
answers with another code, it returns no response and the error `No name
server to answer the question`. -/
theorem localQuery_returns_at_first_decisive_resolver (conf : ClientConfig)
    (exchange : Nat → Exchange) :
    (∀ k, k < conf.Servers.length →
      (∀ j, j < k → ∃ r, (exchange j).r = some r ∧
        r.Rcode ≠ RcodeNameError ∧ r.Rcode ≠ RcodeSuccess) →
      (∀ r, (exchange k).r = some r →
          (r.Rcode = RcodeNameError ∨ r.Rcode = RcodeSuccess) →
          localQuery conf exchange = (some r, (exchange k).err)) ∧
      ((exchange k).r = none → localQuery conf exchange = (none, (exchange k).err))) ∧
    ((∀ j, j < conf.Servers.length → ∃ r, (exchange j).r = some r ∧
        r.Rcode ≠ RcodeNameError ∧ r.Rcode ≠ RcodeSuccess) →
      localQuery conf exchange =
        (none, some ⟨"No name server to answer the question", false⟩)) := by
  refine ⟨?_, ?_⟩
  · intro k hk hskip
    have hskip0 : ∀ j, j < k → ∃ r, (exchange (0 + j)).r = some r ∧
        r.Rcode ≠ RcodeNameError ∧ r.Rcode ≠ RcodeSuccess := by
      intro j hj
      rw [Nat.zero_add]
      exact hskip j hj
    have hat := localQueryFrom_returns_at exchange conf.Servers 0 k hk hskip0
    rw [Nat.zero_add] at hat
    refine ⟨?_, ?_⟩
    · intro r hr hrc
      unfold localQuery
      rw [hat (fun r1 hr1 => by
        rw [hr] at hr1
        cases hr1
        exact hrc), hr]
    · intro hr
      unfold localQuery
      rw [hat (fun r1 hr1 => by rw [hr] at hr1; cases hr1), hr]
  · intro hskip
    unfold localQuery
    exact localQueryFrom_exhausted exchange conf.Servers 0 (fun j hj => by
      rw [Nat.zero_add]
      exact hskip j hj)

theorem localQuery_returns_at_first_decisive_resolver_witness :
    localQuery twoResolvers servfailThenAnswer =
      (some ⟨RcodeSuccess, true, [RR.NS "ns1.example."]⟩, none) :=
  ((localQuery_returns_at_first_decisive_resolver twoResolvers servfailThenAnswer).1 1
      (by decide)
      (fun j hj => by
        have h0 : j = 0 := by omega
        subst h0
        exact ⟨⟨2, false, []⟩, rfl, by decide, by decide⟩)).1
    ⟨RcodeSuccess, true, [RR.NS "ns1.example."]⟩ rfl (Or.inr rfl)

/-- The counterexample of C7: the A lookup of the only name server yields an
address and its AAAA lookup fails. The server holds a resolved address, yet
the loop ends with `availableServers = 0`. -/
theorem availableServers_misses_server_with_failed_aaaa :
    resolved exampleConf (aaaaFailsWorld.aExchange 0) pickA = ["192.0.2.1"] ∧
    lookupFailed exampleConf (aaaaFailsWorld.aaaaExchange 0) = true ∧
    countNS (hasResolvedAddress exampleCfg exampleConf aaaaFailsWorld)
      [RR.NS "ns1.example."] 0 = 1 ∧
    ∃ st, mainLoop exampleCfg exampleConf aaaaFailsWorld [RR.NS "ns1.example."] 0
        (initialState []) = .ok st ∧ st.availableServers = 0 := by
  refine ⟨by decide, by decide, by decide, aaaaFailsFinal, by rfl, by decide⟩

/-- C7, amended. For every answer section and every combination of
responses: the loop completes when the answer holds at most `MAXINFOS` NS
records, and whenever it completes, the final `availableServers` is the
number of NS records all of whose requested lookups succeeded and which
hold at least one resolved address; such a server counts for exactly 1
whatever the number of its addresses, any other server for 0. -/
theorem availableServers_counts_resolved_servers (cfg : Config) (conf : ClientConfig)
    (w : World) (answers : List RR) (trace : List Event) :
    (numNSOf answers ≤ MAXINFOS →
      ∃ st, mainLoop cfg conf w answers 0 (initialState trace) = .ok st) ∧
    ∀ st, mainLoop cfg conf w answers 0 (initialState trace) = .ok st →
      st.availableServers = countNS (serverAvailable cfg conf w) answers 0 ∧
      st.availableServers ≤ countNS (hasResolvedAddress cfg conf w) answers 0 := by
  refine ⟨fun h => mainLoop_returns cfg conf w answers 0 _ (by simpa [initialState] using h), ?_⟩
  intro st hrun
  obtain ⟨_, _, ha, _⟩ := mainLoop_spec cfg conf w answers 0 _ st hrun
  simp only [initialState, Nat.zero_add] at ha
  refine ⟨ha, ?_⟩
  rw [ha]
  exact countNS_mono _ _ (fun i h => by
    simp only [serverAvailable, Bool.and_eq_true] at h
    exact h.2) answers 0

theorem availableServers_counts_resolved_servers_witness :
    oneLameFinal.availableServers = 2 ∧
    oneLameFinal.availableServers =
      countNS (serverAvailable exampleCfg exampleConf oneLameWorld) exampleAnswers 0 :=
  ⟨by decide, ((availableServers_counts_resolved_servers exampleCfg exampleConf oneLameWorld
    exampleAnswers []).2 oneLameFinal (by rfl)).1⟩

/-! ## The informational buffer -/

set_option maxRecDepth 100000 in
/-- C9. The code at the failing input: a zone with 101 healthy name servers.
The assignment `infoMessages[infos] = ...` of the 101st NS record is made
with `infos = 100`, outside the buffer of `MAXINFOS` slots: the run panics
and no verdict is reached. With 100 name servers the verdict is OK. -/
theorem info_buffer_overflows_at_101_servers :
    main defaultFlags (healthyWorld 101) = .error Abort.indexOutOfRange ∧
    (main defaultFlags (healthyWorld 100)).toOption.map (fun e => e.status) =
      some nagios.OK := by
  constructor <;> rfl

/-! ## The failure sites -/

theorem ipv4_lookup_message : ("Error getting the " ++ "IPv4" ++ " address of " : String) =
    "Error getting the IPv4 address of " := by
  decide

/-- The counterexample of C6: no filter is active, the A lookup of the only
name server gets no response, and its AAAA lookup would yield an address.
The server is counted as broken, and the only call made for it is the A
lookup: no AAAA lookup, no SOA query. -/
theorem aaaa_lookup_skipped_after_failed_a_lookup :
    exampleCfg.v4only = false ∧ exampleCfg.v6only = false ∧
    lookupFailed exampleConf (aFailsWorld.aExchange 0) = true ∧
    resolved exampleConf (aFailsWorld.aaaaExchange 0) pickAAAA = ["2001:db8::1"] ∧
    (mainLoop exampleCfg exampleConf aFailsWorld [RR.NS "ns1.example."] 0
        (initialState [])).toOption.map (fun st => (st.brokenServers, st.trace)) =
      some (1, [Event.localQuery "ns1.example." TypeA]) := by
  decide

/-- C6, amended. With no address-family filter active, for every name server
whose A lookup gets no response or a code other than success, reached with a
free informational slot: the server is counted in `brokenServers`, one
error line `Error getting the IPv4 address of <server>: <detail>` is
recorded while fewer than `MAXERRS` lines have been, the A lookup is the only
call made for that server (neither its AAAA lookup nor any SOA query is
performed), and the loop goes on with the remaining records. -/
theorem failed_a_lookup_abandons_the_server (cfg : Config) (conf : ClientConfig) (w : World)
    (i : Nat) (nameserver : String) (rest : List RR) (st : State)
    (hfilter : cfg.v4only = false ∧ cfg.v6only = false)
    (hfail : lookupFailed conf (w.aExchange i) = true)
    (hi : st.infos < st.infoMessages.length) :
    ∃ st1 detail,
      mainLoop cfg conf w (RR.NS nameserver :: rest) i st =
        mainLoop cfg conf w rest (i + 1) st1 ∧
      st1.brokenServers = st.brokenServers + 1 ∧
      st1.availableServers = st.availableServers ∧
      st1.trace = st.trace ++ [Event.localQuery nameserver TypeA] ∧
      st1.errors = (if st.errors < MAXERRS then st.errors + 1 else st.errors) ∧
      st1.errorMessages =
        (if st.errors < MAXERRS then
          st.errorMessages.set st.errors
            ("Error getting the IPv4 address of " ++ nameserver ++ ": " ++ detail)
        else st.errorMessages) := by
  obtain ⟨detail, hl⟩ := (lookupFamily_spec conf w (w.aExchange i) "IPv4" TypeA pickA nameserver
    { st with successServer := true, numNS := st.numNS + 1,
              infoMessages := st.infoMessages.set st.infos (nameserver ++ " : ") }).1 hfail
  rw [ipv4_lookup_message] at hl
  have hp : processNS cfg conf w i nameserver { st with successServer := true } =
      .ok (markBroken ("Error getting the IPv4 address of " ++ nameserver ++ ": " ++ detail)
        { st with successServer := true, numNS := st.numNS + 1,
                  infoMessages := st.infoMessages.set st.infos (nameserver ++ " : "),
                  trace := st.trace ++ [Event.localQuery nameserver TypeA] }) := by
    unfold processNS resolveAddresses
    simp only [hfilter.2, Bool.not_false, if_true]
    rw [if_pos hi, hl]
  refine ⟨markBroken ("Error getting the IPv4 address of " ++ nameserver ++ ": " ++ detail)
      { st with successServer := true, numNS := st.numNS + 1,
                infoMessages := st.infoMessages.set st.infos (nameserver ++ " : "),
                trace := st.trace ++ [Event.localQuery nameserver TypeA] },
    detail, by simp only [mainLoop, hp], ?_, ?_, ?_, ?_, ?_⟩
  · rw [markBroken_brokenServers]; simp
  · rw [(markBroken_frame _ _).2.1]
  · rw [(markBroken_frame _ _).2.2.2.2.1]
  · rw [(markBroken_errors _ _).1]
  · rw [(markBroken_errors _ _).2]

theorem failed_a_lookup_abandons_the_server_witness :
    ∃ st1 detail,
      mainLoop exampleCfg exampleConf aFailsWorld [RR.NS "ns1.example."] 0 (initialState []) =
        mainLoop exampleCfg exampleConf aFailsWorld [] 1 st1 ∧
      st1.brokenServers = 1 ∧
      st1.trace = [Event.localQuery "ns1.example." TypeA] ∧
      st1.errorMessages = (List.replicate MAXERRS "").set 0
        ("Error getting the IPv4 address of " ++ "ns1.example." ++ ": " ++ detail) := by
  obtain ⟨st1, detail, h1, h2, _, h4, _, h6⟩ :=
    failed_a_lookup_abandons_the_server exampleCfg exampleConf aFailsWorld 0 "ns1.example." []
      (initialState []) ⟨rfl, rfl⟩ (by decide) (by decide)
  exact ⟨st1, detail, h1, h2, h4, h6⟩

/-- The counterexample of C8: the SOA answer of the only address has code
success, a non-empty answer section whose first record is a CNAME, and no
authoritative flag. The server is not marked and no error line is
recorded. -/
theorem non_authoritative_answer_without_soa_first_passes :
    (cnameFirstWorld.soaExchange 0 0 0).r =
      some ⟨RcodeSuccess, false, [RR.other 5, RR.SOA 2012010100]⟩ ∧
    (mainLoop exampleCfg exampleConf cnameFirstWorld [RR.NS "ns1.example."] 0
        (initialState [])).toOption.map
          (fun st => (st.brokenServers, st.errors, st.successServer)) =
      some (0, 0, true) := by
  decide

/-- C8, amended. For every direct SOA response with code success, an answer
section whose first record is an SOA record, and the authoritative flag
unset: the queried server is marked Broken (it is counted in
`brokenServers` unless it already was), and while fewer than `MAXERRS` error
lines have been recorded the line `<server>/<address> is not authoritative`
is recorded. -/
theorem non_authoritative_soa_marks_server_broken (cfg : Config) (w : World) (i j : Nat)
    (nameserver ip : String) (st : State) (x : Exchange) (n : Nat) (soa : Msg)
    (serial : Nat) (rest : List RR)
    (htest : testSoa (w.soaExchange i j) cfg.maxtries = some (x, n))
    (hr : x.r = some soa) (hrc : soa.Rcode = RcodeSuccess)
    (hans : soa.Answer = RR.SOA serial :: rest) (hauth : soa.Authoritative = false)
    (hlen : st.errorMessages.length = MAXERRS) :
    ∃ st1, checkAddress cfg w i nameserver j ip st = .ok st1 ∧
      st1.successServer = false ∧
      st1.brokenServers = st.brokenServers + (if st.successServer then 1 else 0) ∧
      (st.errors < MAXERRS →
        st1.errors = st.errors + 1 ∧
        st1.errorMessages[st.errors]? = some (nameserver ++ "/" ++ ip ++ " is not authoritative"))
    := by
  have hc : checkAddress cfg w i nameserver j ip st =
      .ok (markBroken (nameserver ++ "/" ++ ip ++ " is not authoritative")
        { st with trace := st.trace ++ [Event.testSoa (JoinHostPort ip "53")] }) := by
    simp [checkAddress, htest, hr, hrc, hans, hauth]
  refine ⟨_, hc, markBroken_successServer _ _, by rw [markBroken_brokenServers], ?_⟩
  intro he
  rw [(markBroken_errors _ _).1, (markBroken_errors _ _).2]
  simp only [he, if_true, true_and]
  rw [List.getElem?_set_self]
  simp only [hlen, he, if_true]

theorem non_authoritative_soa_marks_server_broken_witness :
    ∃ st1, checkAddress exampleCfg oneLameWorld 1 "ns2.example." 0 "192.0.2.2"
        (initialState []) = .ok st1 ∧
      st1.successServer = false ∧ st1.brokenServers = 1 ∧ st1.errors = 1 ∧
      st1.errorMessages[0]? = some "ns2.example./192.0.2.2 is not authoritative" := by
  obtain ⟨st1, h1, h2, h3, h4⟩ :=
    non_authoritative_soa_marks_server_broken exampleCfg oneLameWorld 1 0 "ns2.example."
      "192.0.2.2" (initialState []) (lameAnswer [RR.SOA 2012010100]) 1
      ⟨RcodeSuccess, false, [RR.SOA 2012010100]⟩ 2012010100 [] (by decide) rfl rfl rfl rfl
      (by decide)
  exact ⟨st1, h1, h2, h3, (h4 (by decide)).1, (h4 (by decide)).2⟩

theorem no_ipv4_message : ("No IP" ++ "v4" ++ " address for this server " : String) =
    "No IPv4 address for this server " := by
  decide

/-- The counterexample of C10: IPv4 only, all servers required. Ten name
servers whose A lookup fails fill the error buffer; the eleventh has a
successful A lookup without any A record. It is counted in `brokenServers`,
but no `No IPv4 address` line is recorded for it. -/
theorem no_ipv4_line_dropped_when_buffer_is_full :
    lookupFailed exampleConf (noIPv4World.aExchange 10) = false ∧
    resolved exampleConf (noIPv4World.aExchange 10) pickA = [] ∧
    (mainLoop v4RequiredCfg exampleConf noIPv4World (manyAnswers 10) 0
        (initialState [])).toOption.map (fun st => (st.brokenServers, st.errors)) =
      some (10, 10) ∧
    (mainLoop v4RequiredCfg exampleConf noIPv4World (manyAnswers 11) 0
        (initialState [])).toOption.map
          (fun st => (st.brokenServers, st.errors,
            decide ("No IPv4 address for this server ns10.example." ∈ st.errorMessages))) =
      some (11, 10, false) := by
  decide

/-- C10, amended. In IPv4-only mode, for every name server whose A lookup
succeeds without any A record, reached with a free informational slot: if
all servers are required, the server is counted once in `brokenServers`,
not in `availableServers`, and the line `No IPv4 address for this server
<server>` is recorded while fewer than `MAXERRS` error lines have been; if
they are not, `brokenServers`, `availableServers` and the error lines are
unchanged. The outcome is the same in every world with the same answers to
the A lookup of that server, whatever its AAAA and SOA answers. -/
theorem ipv4_only_server_without_a_record (cfg : Config) (conf : ClientConfig) (w : World)
    (i : Nat) (nameserver : String) (st : State)
    (h4 : cfg.v4only = true) (h6 : cfg.v6only = false)
    (hok : lookupFailed conf (w.aExchange i) = false)
    (hnone : resolved conf (w.aExchange i) pickA = [])
    (hs : st.successServer = true) (hi : st.infos < st.infoMessages.length) :
    ∃ st1, processNS cfg conf w i nameserver st = .ok st1 ∧
      (cfg.requireAllServers = true →
        st1.brokenServers = st.brokenServers + 1 ∧
        st1.availableServers = st.availableServers ∧
        st1.errors = (if st.errors < MAXERRS then st.errors + 1 else st.errors) ∧
        st1.errorMessages =
          (if st.errors < MAXERRS then
            st.errorMessages.set st.errors ("No IPv4 address for this server " ++ nameserver)
          else st.errorMessages)) ∧
      (cfg.requireAllServers = false →
        st1.brokenServers = st.brokenServers ∧
        st1.availableServers = st.availableServers ∧
        st1.errors = st.errors ∧
        st1.errorMessages = st.errorMessages) ∧
      (∀ w1 : World, w1.aExchange i = w.aExchange i →
        processNS cfg conf w1 i nameserver st = .ok st1) := by
  have hv : ipVersion cfg = "v4" := by simp [ipVersion, h4, h6]
  have key : ∀ w1 : World, w1.aExchange i = w.aExchange i →
      processNS cfg conf w1 i nameserver st = .ok
        (if cfg.requireAllServers then
          markBroken ("No IPv4 address for this server " ++ nameserver)
            { st with numNS := st.numNS + 1,
                      infoMessages := st.infoMessages.set st.infos (nameserver ++ " : "),
                      trace := st.trace ++ [Event.localQuery nameserver TypeA] }
        else
          { st with numNS := st.numNS + 1,
                    infoMessages := st.infoMessages.set st.infos (nameserver ++ " : "),
                    trace := st.trace ++ [Event.localQuery nameserver TypeA],
                    infos := st.infos + 1 }) := by
    intro w1 hw1
    have hl := (lookupFamily_spec conf w1 (w1.aExchange i) "IPv4" TypeA pickA nameserver
      { st with numNS := st.numNS + 1,
                infoMessages := st.infoMessages.set st.infos (nameserver ++ " : ") }).2
      (by rw [hw1]; exact hok)
    rw [hw1, hnone] at hl
    unfold processNS resolveAddresses
    simp only [h4, h6, Bool.not_false, Bool.not_true, if_true, Bool.false_eq_true, if_false]
    rw [if_pos hi, hw1, hl]
    simp only [List.append_nil, List.length_nil, if_true, Bool.false_and, Bool.or_false, hv,
      no_ipv4_message, checkAddresses]
    cases cfg.requireAllServers <;> simp
  refine ⟨_, key w rfl, ?_, ?_, key⟩
  · intro hr
    simp only [hr, if_true]
    refine ⟨?_, ?_, ?_, ?_⟩
    · rw [markBroken_brokenServers]; simp [hs]
    · rw [(markBroken_frame _ _).2.1]
    · rw [(markBroken_errors _ _).1]
    · rw [(markBroken_errors _ _).2]
  · intro hr
    simp [hr]

theorem ipv4_only_server_without_a_record_witness :
    ∃ st1, processNS v4RequiredCfg exampleConf noIPv4World 10 "ns10.example."
        (initialState []) = .ok st1 ∧
      st1.brokenServers = 1 ∧ st1.availableServers = 0 ∧ st1.errors = 1 ∧
      st1.errorMessages = (List.replicate MAXERRS "").set 0
        ("No IPv4 address for this server " ++ "ns10.example.") := by
  obtain ⟨st1, h1, h2, _, _⟩ :=
    ipv4_only_server_without_a_record v4RequiredCfg exampleConf noIPv4World 10 "ns10.example."
      (initialState []) rfl rfl (by decide) (by decide) rfl (by decide)
  obtain ⟨a, b, c, d⟩ := h2 rfl
  exact ⟨st1, h1, a, b, c, d⟩

/-! ## The exits outside the threshold rule -/

/-- C11. For every state in which the loop can end with
`availableServers == 0`, whatever `brokenServers` and the thresholds: with no
address-family filter the verdict is UNKNOWN and the exit code 3; with
IPv4-only (resp. IPv6-only) active it is CRITICAL, exit code 2, with the
headline `No name servers with the requested address family IPv4` (resp.
`IPv6`). -/
theorem no_available_server_verdict (cfg : Config) (st : State)
    (hav : st.availableServers = 0) :
    (cfg.v4only = false ∧ cfg.v6only = false →
      ∃ e, verdict cfg st = .ok e ∧ e.status = nagios.UNKNOWN ∧ e.process.exitCode = 3) ∧
    (cfg.v4only = true ∧ cfg.v6only = false →
      ∃ e, verdict cfg st = .ok e ∧ e.status = nagios.CRITICAL ∧ e.process.exitCode = 2 ∧
        e.msg = "No name servers with the requested address family IPv4") ∧
    (cfg.v4only = false ∧ cfg.v6only = true →
      ∃ e, verdict cfg st = .ok e ∧ e.status = nagios.CRITICAL ∧ e.process.exitCode = 2 ∧
        e.msg = "No name servers with the requested address family IPv6") := by
  unfold verdict
  rw [if_pos hav]
  refine ⟨?_, ?_, ?_⟩
  · rintro ⟨h4, h6⟩
    simp only [h4, h6, Bool.not_false, Bool.and_self, if_true]
    exact ⟨_, rfl, rfl, rfl⟩
  · rintro ⟨h4, h6⟩
    simp only [h4, h6, Bool.not_true, Bool.false_and, Bool.false_eq_true, if_false, if_true]
    refine ⟨_, rfl, rfl, rfl, ?_⟩
    show "No name servers with the requested address family " ++ "IPv4" =
      "No name servers with the requested address family IPv4"
    decide
  · rintro ⟨h4, h6⟩
    simp only [h4, h6, Bool.not_true, Bool.and_false, Bool.false_eq_true, if_false]
    refine ⟨_, rfl, rfl, rfl, ?_⟩
    show "No name servers with the requested address family " ++ "IPv6" =
      "No name servers with the requested address family IPv6"
    decide

theorem no_available_server_verdict_witness :
    (∃ e, verdict exampleCfg noneAvailableState = .ok e ∧ e.status = nagios.UNKNOWN ∧
      e.process.exitCode = 3) ∧
    (∃ e, verdict v4RequiredCfg noneAvailableState = .ok e ∧ e.status = nagios.CRITICAL ∧
      e.process.exitCode = 2 ∧
      e.msg = "No name servers with the requested address family IPv4") :=
  ⟨(no_available_server_verdict exampleCfg noneAvailableState rfl).1 ⟨rfl, rfl⟩,
   (no_available_server_verdict v4RequiredCfg noneAvailableState rfl).2.1 ⟨rfl, rfl⟩⟩

/-- The counterexample of C12: the thresholds given are `-w 1 -c 0`, so the
warning value given is above the critical one. The critical threshold is
raised to 1 before the comparison, the run goes on to the queries and ends
OK. -/
theorem given_thresholds_one_zero_are_accepted :
    criticalZeroFlags.warningThresholdP > criticalZeroFlags.criticalThresholdP ∧
    (main criticalZeroFlags (healthyWorld 1)).toOption.map
        (fun e => (e.status, e.msg, e.trace)) =
      some (nagios.OK, "Zone example. is fine",
        [Event.clientConfigFromFile, Event.localQuery "example." TypeNS,
         Event.localQuery "ns0.example." TypeA, Event.localQuery "ns0.example." TypeAAAA,
         Event.testSoa "192.0.2.1:53"]) := by
  decide

/-- C12, amended. For every pair of threshold values given with `-w` and `-c`
such that warning > critical, the pair (1, 0) excepted, the effective
thresholds (each value raised to at least 1) still have warning > critical,
and the run ends UNKNOWN with exit code 3 and an empty trace: before the
resolver configuration is loaded and before any query, whatever the
world. -/
theorem inverted_thresholds_end_unknown (f : Flags) (w : World)
    (hgt : f.warningThresholdP > f.criticalThresholdP)
    (hne : ¬ (f.warningThresholdP = 1 ∧ f.criticalThresholdP = 0)) :
    (configOf f).warningThreshold > (configOf f).criticalThreshold ∧
    ∃ e, main f w = .ok e ∧ e.status = nagios.UNKNOWN ∧ e.process.exitCode = 3 ∧
      e.trace = [] := by
  have heff : (configOf f).warningThreshold > (configOf f).criticalThreshold := by
    simp only [configOf]
    split_ifs <;> omega
  refine ⟨heff, ?_⟩
  unfold main
  split_ifs <;> exact ⟨_, rfl, rfl, rfl, rfl⟩

theorem inverted_thresholds_end_unknown_witness :
    ∃ e, main invertedFlags (healthyWorld 1) = .ok e ∧ e.status = nagios.UNKNOWN ∧
      e.process.exitCode = 3 ∧ e.trace = [] :=
  (inverted_thresholds_end_unknown invertedFlags (healthyWorld 1) (by decide) (by decide)).2

/-- C14. For every status, headline, list of detail lines, force-display
flag and verbosity: `ExitStatus` prints the line `<Service> <STATUS>: <msg>`
first; after it the detail lines, each followed by a newline, all of them
and in order, when force-display is set or `Verbosity ≥ 2`, and nothing
otherwise; the exit code is the status, the four statuses being 0, 1, 2, 3
and printed as OK, WARNING, CRITICAL, UNKNOWN. -/
theorem ExitStatus_prints_headline_and_details (Service : String) (Verbosity : Nat)
    (status : nagios.Status) (msg : String) (extraMessages : List String)
    (forceDisplay : Bool) :
    (nagios.ExitStatus Service Verbosity status msg extraMessages forceDisplay).exitCode =
      status ∧
    (forceDisplay = true ∨ 2 ≤ Verbosity →
      (nagios.ExitStatus Service Verbosity status msg extraMessages forceDisplay).stdout =
        Service ++ " " ++ nagios.Status.String status ++ ": " ++ msg ++ "\n" ++
          nagios.printLines extraMessages) ∧
    (¬ (forceDisplay = true ∨ 2 ≤ Verbosity) →
      (nagios.ExitStatus Service Verbosity status msg extraMessages forceDisplay).stdout =
        Service ++ " " ++ nagios.Status.String status ++ ": " ++ msg ++ "\n" ++ "") ∧
    (nagios.printLines [] = "" ∧
      ∀ (l : String) (rest : List String),
        nagios.printLines (l :: rest) = l ++ "\n" ++ nagios.printLines rest) ∧
    (nagios.OK = 0 ∧ nagios.WARNING = 1 ∧ nagios.CRITICAL = 2 ∧ nagios.UNKNOWN = 3) ∧
    (nagios.Status.String nagios.OK = "OK" ∧
      nagios.Status.String nagios.WARNING = "WARNING" ∧
      nagios.Status.String nagios.CRITICAL = "CRITICAL" ∧
      nagios.Status.String nagios.UNKNOWN = "UNKNOWN") := by
  refine ⟨rfl, ?_, ?_, ⟨rfl, fun _ _ => rfl⟩, ⟨rfl, rfl, rfl, rfl⟩,
    ⟨by decide, by decide, by decide, by decide⟩⟩
  · intro h
    have hc : (forceDisplay || decide (Verbosity ≥ 2)) = true := by
      rcases h with h | h
      · simp [h]
      · simp [h]
    simp only [nagios.ExitStatus, hc, if_true]
  · intro h
    have hc : (forceDisplay || decide (Verbosity ≥ 2)) = false := by
      cases forceDisplay
      · simp only [Bool.false_or, decide_eq_false_iff_not]
        exact fun h2 => h (Or.inr h2)
      · exact absurd (Or.inl rfl) h
    simp only [nagios.ExitStatus, hc, Bool.false_eq_true, if_false]

theorem ExitStatus_prints_headline_and_details_witness :
    (nagios.ExitStatus "CHECK_DNS_SOA" 2 nagios.WARNING "first line" ["second", "third"]
        false).stdout = "CHECK_DNS_SOA WARNING: first line\nsecond\nthird\n" ∧
    (nagios.ExitStatus "CHECK_DNS_SOA" 1 nagios.WARNING "first line" ["second", "third"]
        false).stdout = "CHECK_DNS_SOA WARNING: first line\n" ∧
    (nagios.ExitStatus "CHECK_DNS_SOA" 2 nagios.WARNING "first line" ["second", "third"]
        false).exitCode = 1 := by
  have h := ExitStatus_prints_headline_and_details "CHECK_DNS_SOA" 2 nagios.WARNING
    "first line" ["second", "third"] false
  have h1 := ExitStatus_prints_headline_and_details "CHECK_DNS_SOA" 1 nagios.WARNING
    "first line" ["second", "third"] false
  refine ⟨?_, ?_, h.1⟩
  · rw [h.2.1 (Or.inr (by decide))]
    decide
  · rw [h1.2.2.1 (by decide)]
    decide

/-- With accepted flags and a resolver configuration, `main` loads the
configuration and goes on to the zone's NS query. -/
theorem main_eq_checkZone (f : Flags) (w : World) (conf : ClientConfig)
    (hf : flagsAccepted f = true) (hconf : w.conf = some conf) :
    main f w = checkZone (configOf f) conf w [Event.clientConfigFromFile] := by
  simp only [flagsAccepted, Bool.and_eq_true, Bool.not_eq_true', decide_eq_false_iff_not]
    at hf
  obtain ⟨⟨⟨⟨h1, h2⟩, h3⟩, h4⟩, h5⟩ := hf
  unfold main
  rw [if_neg (by simp [h1]), if_neg (by simp [h2]), if_neg (by simp [h3]), if_neg h4,
    if_neg h5, hconf]

/-- C15. For every accepted command line and every world: when the local
resolver answers the zone's NS query with a name error, the run ends
CRITICAL, exit code 2, with the headline `No such domain <zone>`, and the
only query made is that NS query (no address lookup, no SOA query); when
the lookup yields no response, the run ends CRITICAL, exit code 2, with a
headline that starts with `Cannot retrieve the list of name servers for`. -/
theorem missing_zone_ends_critical (f : Flags) (w : World) (conf : ClientConfig)
    (hf : flagsAccepted f = true) (hconf : w.conf = some conf) :
    (∀ r err, localQuery conf w.nsExchange = (some r, err) → r.Rcode = RcodeNameError →
      ∃ e, main f w = .ok e ∧ e.status = nagios.CRITICAL ∧ e.process.exitCode = 2 ∧
        e.msg = "No such domain " ++ Fqdn f.zoneP ∧
        e.trace = [Event.clientConfigFromFile, Event.localQuery (Fqdn f.zoneP) TypeNS]) ∧
    (∀ err, localQuery conf w.nsExchange = (none, err) →
      ∃ e, main f w = .ok e ∧ e.status = nagios.CRITICAL ∧ e.process.exitCode = 2 ∧
        e.msg = "Cannot retrieve the list of name servers for " ++
          (Fqdn f.zoneP ++ ": " ++ fmtErr err) ∧
        e.trace = [Event.clientConfigFromFile, Event.localQuery (Fqdn f.zoneP) TypeNS]) := by
  rw [main_eq_checkZone f w conf hf hconf]
  refine ⟨?_, ?_⟩
  · intro r err hq hrc
    unfold checkZone
    simp only [hq, hrc, if_true]
    exact ⟨_, rfl, rfl, rfl, rfl, rfl⟩
  · intro err hq
    unfold checkZone
    simp only [hq]
    refine ⟨_, rfl, rfl, rfl, ?_, rfl⟩
    show "Cannot retrieve the list of name servers for " ++ (configOf f).zone ++ ": " ++
      fmtErr err = _
    simp only [configOf, String.append_assoc]

theorem missing_zone_ends_critical_witness :
    ∃ e, main defaultFlags nxdomainWorld = .ok e ∧ e.status = nagios.CRITICAL ∧
      e.process.exitCode = 2 ∧ e.msg = "No such domain " ++ Fqdn "example" ∧
      e.trace = [Event.clientConfigFromFile, Event.localQuery (Fqdn "example") TypeNS] :=
  (missing_zone_ends_critical defaultFlags nxdomainWorld exampleConf (by decide) rfl).1
    ⟨RcodeNameError, false, []⟩ none (by decide) rfl

/-- C17. For every direct SOA response with code success and a non-empty
answer section whose first record is not an SOA record, whatever its
authoritative flag: processing the address returns and leaves
`successServer`, `brokenServers`, `errors`, the error lines, `infos` and the
informational lines (the line of the server among them) unchanged. -/
theorem answer_without_soa_first_changes_nothing (cfg : Config) (w : World) (i j : Nat)
    (nameserver ip : String) (st : State) (x : Exchange) (n : Nat) (soa : Msg)
    (first : RR) (rest : List RR)
    (htest : testSoa (w.soaExchange i j) cfg.maxtries = some (x, n))
    (hr : x.r = some soa) (hrc : soa.Rcode = RcodeSuccess)
    (hans : soa.Answer = first :: rest) (hfirst : ∀ serial, first ≠ RR.SOA serial) :
    ∃ st1, checkAddress cfg w i nameserver j ip st = .ok st1 ∧
      st1.successServer = st.successServer ∧
      st1.brokenServers = st.brokenServers ∧
      st1.errors = st.errors ∧ st1.errorMessages = st.errorMessages ∧
      st1.infos = st.infos ∧ st1.infoMessages = st.infoMessages ∧
      st1.availableServers = st.availableServers ∧ st1.numNS = st.numNS := by
  have hc : checkAddress cfg w i nameserver j ip st =
      .ok { st with trace := st.trace ++ [Event.testSoa (JoinHostPort ip "53")] } := by
    cases first with
    | SOA serial => exact absurd rfl (hfirst serial)
    | NS _ => simp [checkAddress, htest, hr, hrc, hans]
    | A _ => simp [checkAddress, htest, hr, hrc, hans]
    | AAAA _ => simp [checkAddress, htest, hr, hrc, hans]
    | other _ => simp [checkAddress, htest, hr, hrc, hans]
  exact ⟨_, hc, rfl, rfl, rfl, rfl, rfl, rfl, rfl, rfl⟩

theorem answer_without_soa_first_changes_nothing_witness :
    ∃ st1, checkAddress exampleCfg cnameFirstWorld 0 "ns1.example." 0 "192.0.2.1"
        (initialState []) = .ok st1 ∧
      st1.successServer = true ∧ st1.brokenServers = 0 ∧ st1.errors = 0 ∧
      st1.infoMessages = (initialState []).infoMessages := by
  obtain ⟨st1, h, h1, h2, h3, _, _, h6, _⟩ :=
    answer_without_soa_first_changes_nothing exampleCfg cnameFirstWorld 0 0 "ns1.example."
      "192.0.2.1" (initialState []) (lameAnswer [RR.other 5, RR.SOA 2012010100]) 1
      ⟨RcodeSuccess, false, [RR.other 5, RR.SOA 2012010100]⟩ (RR.other 5)
      [RR.SOA 2012010100] (by decide) rfl rfl rfl (by intro s h; cases h)
  exact ⟨st1, h, h1, h2, h3, h6⟩

/-! ## The informational lines of a healthy zone -/

theorem take_set_self (l : List String) (n : Nat) (a : String) :
    (l.set n a).take n = l.take n := by
  induction l generalizing n with
  | nil => simp
  | cons x xs ih => cases n <;> simp [ih]

theorem take_succ_set (l : List String) (n : Nat) (a : String) (h : n < l.length) :
    (l.set n a).take (n + 1) = l.take n ++ [a] := by
  rw [List.take_succ, take_set_self]
  simp [List.getElem?_set, h]

/-- A healthy SOA answer appends the text of the address to the line of the
server and changes nothing else but the trace. -/
theorem checkAddress_healthy (cfg : Config) (w : World) (i : Nat) (nameserver : String)
    (j : Nat) (ip : String) (st : State) (h : (soaSerial cfg w i j).isSome = true) :
    checkAddress cfg w i nameserver j ip st =
      .ok (appendInfo (ip ++ " (" ++ toString ((soaSerial cfg w i j).getD 0) ++ ") ")
        { st with trace := st.trace ++ [Event.testSoa (JoinHostPort ip "53")] }) := by
  obtain ⟨n, hn⟩ := testSoa_some (w.soaExchange i j) cfg.maxtries
  unfold soaSerial healthySerial at h ⊢
  rw [hn] at h ⊢
  simp only [] at h ⊢
  cases hr : (w.soaExchange i j (n - 1)).r with
  | none => simp [hr] at h
  | some soa =>
    rw [hr] at h
    simp only [] at h ⊢
    by_cases hc : soa.Rcode = RcodeSuccess ∧ soa.Authoritative = true
    · rw [if_pos hc] at h ⊢
      cases hans : soa.Answer with
      | nil => simp [hans] at h
      | cons first rest =>
        cases first with
        | SOA serial => simp [checkAddress, hn, hr, hc.1, hc.2, hans]
        | NS _ => simp [hans] at h
        | A _ => simp [hans] at h
        | AAAA _ => simp [hans] at h
        | other _ => simp [hans] at h
    · rw [if_neg hc] at h
      simp at h

/-- The SOA loop over healthy addresses: the line of the server, which is
`cur` in slot `infos` of the buffer, receives the texts of the addresses in
order. -/
theorem checkAddresses_healthy (cfg : Config) (w : World) (i : Nat) (nameserver : String)
    (base : List String) :
    ∀ (ips : List String) (j0 : Nat) (st : State) (cur : String),
      st.infos < base.length → st.infoMessages = base.set st.infos cur →
      (∀ k, k < ips.length → (soaSerial cfg w i (j0 + k)).isSome = true) →
      ∃ st1, checkAddresses cfg w i nameserver ips j0 st = .ok st1 ∧
        st1.infoMessages = base.set st.infos
          ((infoSegments cfg w i ips j0).foldl (fun line seg => line ++ seg) cur) ∧
        st1.infos = st.infos ∧ st1.brokenServers = st.brokenServers ∧
        st1.availableServers = st.availableServers ∧ st1.numNS = st.numNS ∧
        st1.errors = st.errors ∧ st1.errorMessages = st.errorMessages := by
  intro ips
  induction ips with
  | nil =>
    intro j0 st cur _ hcur _
    exact ⟨st, rfl, by simpa [infoSegments] using hcur, rfl, rfl, rfl, rfl, rfl, rfl⟩
  | cons ip rest ih =>
    intro j0 st cur hlt hcur hall
    have h0 := checkAddress_healthy cfg w i nameserver j0 ip st (by simpa using hall 0 (by simp))
    have hstep : (appendInfo (ip ++ " (" ++ toString ((soaSerial cfg w i j0).getD 0) ++ ") ")
        { st with trace := st.trace ++ [Event.testSoa (JoinHostPort ip "53")] }).infoMessages =
        base.set st.infos
          (cur ++ (ip ++ " (" ++ toString ((soaSerial cfg w i j0).getD 0) ++ ") ")) := by
      simp only [appendInfo, hcur, List.set_set]
      congr 1
      simp [List.getD_eq_getElem?_getD, List.getElem?_set, hlt]
    obtain ⟨st1, h1, m1, f1, f2, f3, f4, f5, f6⟩ := ih (j0 + 1)
      (appendInfo (ip ++ " (" ++ toString ((soaSerial cfg w i j0).getD 0) ++ ") ")
        { st with trace := st.trace ++ [Event.testSoa (JoinHostPort ip "53")] })
      (cur ++ (ip ++ " (" ++ toString ((soaSerial cfg w i j0).getD 0) ++ ") ")) hlt hstep
      (fun k hk => by
        have := hall (k + 1) (by simpa using hk)
        rwa [show j0 + (k + 1) = j0 + 1 + k by omega] at this)
    refine ⟨st1, by simp only [checkAddresses, h0, h1], ?_, f1, f2, f3, f4, f5, f6⟩
    rw [m1]
    rfl

/-- One iteration on the NS record of a healthy server: its line is written
in slot `infos`, `infos`, `numNS` and `availableServers` grow by one, and
the broken count and the error buffer are untouched. -/
theorem processNS_healthy (cfg : Config) (conf : ClientConfig) (w : World) (i : Nat)
    (nameserver : String) (st : State) (hh : healthyServer cfg conf w i = true)
    (hi : st.infos < st.infoMessages.length) :
    ∃ st1, processNS cfg conf w i nameserver st = .ok st1 ∧
      st1.infoMessages = st.infoMessages.set st.infos (infoLine cfg conf w i nameserver) ∧
      st1.infos = st.infos + 1 ∧ st1.brokenServers = st.brokenServers ∧
      st1.availableServers = st.availableServers + 1 ∧ st1.numNS = st.numNS + 1 ∧
      st1.errors = st.errors ∧ st1.errorMessages = st.errorMessages := by
  simp only [healthyServer, serverAvailable, Bool.and_eq_true, Bool.not_eq_true',
    List.all_eq_true, List.mem_range, List.isEmpty_eq_false] at hh
  obtain ⟨⟨hf, hne⟩, hall⟩ := hh
  obtain ⟨t, ht⟩ := (resolveAddresses_spec cfg conf w i nameserver
    { st with numNS := st.numNS + 1,
              infoMessages := st.infoMessages.set st.infos (nameserver ++ " : ") }).2 hf
  have hlen : ¬ (addresses cfg conf w i).length = 0 := fun h => hne (List.length_eq_zero.mp h)
  obtain ⟨st4, h4, m4, f1, f2, f3, f4, f5, f6⟩ := checkAddresses_healthy cfg w i nameserver
    st.infoMessages (addresses cfg conf w i) 0
    { st with numNS := st.numNS + 1,
              infoMessages := st.infoMessages.set st.infos (nameserver ++ " : "),
              trace := t, availableServers := st.availableServers + 1 }
    (nameserver ++ " : ") hi rfl (fun k hk => by simpa using hall k hk)
  unfold processNS
  simp only []
  rw [if_pos hi, ht]
  simp only []
  rw [if_neg hlen, h4]
  exact ⟨_, rfl, m4, by simp [f1], f2, f3, f4, f5, f6⟩

/-- The loop over the records of a healthy zone. -/
theorem mainLoop_healthy (cfg : Config) (conf : ClientConfig) (w : World) :
    ∀ (answers : List RR) (i : Nat) (st : State),
      allHealthy cfg conf w answers i = true →
      st.infos + numNSOf answers ≤ st.infoMessages.length →
      ∃ st1, mainLoop cfg conf w answers i st = .ok st1 ∧
        st1.infoMessages.take st1.infos =
          st.infoMessages.take st.infos ++ expectedInfoLines cfg conf w answers i ∧
        st1.infos = st.infos + numNSOf answers ∧
        st1.infoMessages.length = st.infoMessages.length ∧
        st1.brokenServers = st.brokenServers ∧
        st1.availableServers = st.availableServers + numNSOf answers ∧
        st1.numNS = st.numNS + numNSOf answers := by
  intro answers
  induction answers with
  | nil =>
    intro i st _ _
    exact ⟨st, rfl, by simp [expectedInfoLines], rfl, rfl, rfl, rfl, rfl⟩
  | cons ans rest ih =>
    intro i st hh hlen
    have other : allHealthy cfg conf w rest (i + 1) = true →
        st.infos + numNSOf rest ≤ st.infoMessages.length →
        numNSOf (ans :: rest) = numNSOf rest →
        expectedInfoLines cfg conf w (ans :: rest) i =
          expectedInfoLines cfg conf w rest (i + 1) →
        mainLoop cfg conf w (ans :: rest) i st =
          mainLoop cfg conf w rest (i + 1) { st with successServer := true } →
        ∃ st1, mainLoop cfg conf w (ans :: rest) i st = .ok st1 ∧
          st1.infoMessages.take st1.infos =
            st.infoMessages.take st.infos ++ expectedInfoLines cfg conf w (ans :: rest) i ∧
          st1.infos = st.infos + numNSOf (ans :: rest) ∧
          st1.infoMessages.length = st.infoMessages.length ∧
          st1.brokenServers = st.brokenServers ∧
          st1.availableServers = st.availableServers + numNSOf (ans :: rest) ∧
          st1.numNS = st.numNS + numNSOf (ans :: rest) := by
      intro h1 h2 hn he hm
      obtain ⟨st1, r1, r2, r3, r4, r5, r6, r7⟩ :=
        ih (i + 1) { st with successServer := true } h1 h2
      rw [hn, he, hm]
      exact ⟨st1, r1, r2, r3, r4, r5, r6, r7⟩
    cases ans with
    | NS nameserver =>
      simp only [allHealthy, Bool.and_eq_true] at hh
      simp only [numNSOf] at hlen
      obtain ⟨st2, h2, m2, i2, b2, a2, n2, _, _⟩ :=
        processNS_healthy cfg conf w i nameserver { st with successServer := true } hh.1
          (by simp only []; omega)
      simp only [] at m2 i2 b2 a2 n2
      have l2 : st2.infoMessages.length = st.infoMessages.length := by
        rw [m2, List.length_set]
      obtain ⟨st3, h3, m3, i3, l3, b3, a3, n3⟩ := ih (i + 1) st2 hh.2 (by omega)
      refine ⟨st3, by simp only [mainLoop, h2, h3], ?_, ?_, by omega, by omega, ?_, ?_⟩
      · rw [m3, i2, m2, take_succ_set _ _ _ (by omega)]
        simp [expectedInfoLines]
      · simp only [numNSOf]; omega
      · simp only [numNSOf]; omega
      · simp only [numNSOf]; omega
    | A a => exact other hh hlen rfl rfl rfl
    | AAAA a => exact other hh hlen rfl rfl rfl
    | SOA s => exact other hh hlen rfl rfl rfl
    | other t => exact other hh hlen rfl rfl rfl

/-- C13. For every answer section with `n` NS records, `1 ≤ n ≤ 100`, in a
world where every name server is healthy (its requested lookups succeed and
yield at least one address, and every address answers the SOA query with
code success, the authoritative flag and an SOA record first), and for
every threshold pair `1 ≤ warning ≤ critical`: the loop completes, the
verdict is OK with exit code 0, and its detail lines are exactly the `n`
informational lines of the servers in NS-record order, the line of a server
being `<nameserver> : ` followed by `<address> (<serial>) ` for each of its
addresses, IPv4 addresses first. -/
theorem healthy_zone_is_ok (cfg : Config) (conf : ClientConfig) (w : World)
    (answers : List RR) (trace : List Event)
    (hn : 1 ≤ numNSOf answers ∧ numNSOf answers ≤ MAXINFOS)
    (hh : allHealthy cfg conf w answers 0 = true)
    (hthr : 1 ≤ cfg.warningThreshold ∧ cfg.warningThreshold ≤ cfg.criticalThreshold) :
    ∃ st e, mainLoop cfg conf w answers 0 (initialState trace) = .ok st ∧
      verdict cfg st = .ok e ∧
      e.status = nagios.OK ∧ e.process.exitCode = 0 ∧
      e.msg = "Zone " ++ cfg.zone ++ " is fine" ∧
      e.extraMessages = expectedInfoLines cfg conf w answers 0 ∧
      e.extraMessages.length = numNSOf answers := by
  obtain ⟨st, h, m, i1, l1, b1, a1, n1⟩ := mainLoop_healthy cfg conf w answers 0
    (initialState trace) hh (by simpa [initialState] using hn.2)
  simp only [initialState, List.take_zero, List.nil_append, Nat.zero_add,
    List.length_replicate] at m i1 l1 b1 a1 n1
  have hslice : slice st.infoMessages 0 st.infos = .ok (expectedInfoLines cfg conf w answers 0) := by
    rw [slice_ok _ _ _ (Nat.zero_le _) (by rw [l1, i1]; exact hn.2), List.drop_zero, m]
  have hlines : (expectedInfoLines cfg conf w answers 0).length = numNSOf answers := by
    rw [← m, List.length_take, i1, l1]
    exact Nat.min_eq_left hn.2
  have hv : verdict cfg st = .ok ⟨nagios.OK, "Zone " ++ cfg.zone ++ " is fine" ++ "",
      expectedInfoLines cfg conf w answers 0, false, cfg.Verbosity, st.trace⟩ := by
    unfold verdict
    rw [if_neg (by omega), if_neg (by omega), if_pos (by omega), hslice]
    simp only [b1, Nat.lt_irrefl, gt_iff_lt, if_false]
  exact ⟨st, _, h, hv, rfl, rfl, String.append_empty _, rfl, hlines⟩

theorem healthy_zone_is_ok_witness :
    ∃ st e, mainLoop exampleCfg exampleConf dualStackWorld exampleAnswers 0 (initialState []) =
        .ok st ∧
      verdict exampleCfg st = .ok e ∧ e.status = nagios.OK ∧ e.process.exitCode = 0 ∧
      e.extraMessages =
        ["ns1.example. : 192.0.2.1 (2012010100) 2001:db8::1 (2012010100) ",
         "ns2.example. : 192.0.2.2 (2012010100) 2001:db8::2 (2012010100) "] := by
  obtain ⟨st, e, h1, h2, h3, h4, _, h6, _⟩ :=
    healthy_zone_is_ok exampleCfg exampleConf dualStackWorld exampleAnswers []
      (by decide) (by decide) (by decide)
  refine ⟨st, e, h1, h2, h3, h4, ?_⟩
  rw [h6]
  decide

/-! ## The recorded error lines -/

theorem append_eq_empty_iff (a b : String) : a ++ b = "" ↔ a = "" ∧ b = "" := by
  constructor
  · intro h
    have h1 : (a ++ b).data = [] := by rw [h]
    rw [String.data_append, List.append_eq_nil] at h1
    exact ⟨String.ext h1.1, String.ext h1.2⟩
  · rintro ⟨rfl, rfl⟩; rfl

theorem Records.same (st : State) : Records st st :=
  fun h => ⟨h, [], by simp, by simp⟩

theorem Records.andThen {a b c : State} (h1 : Records a b) (h2 : Records b c) : Records a c := by
  intro ha
  obtain ⟨hb, n1, e1, p1⟩ := h1 ha
  obtain ⟨hc, n2, e2, p2⟩ := h2 hb
  refine ⟨hc, n1 ++ n2, by rw [e2, e1, List.append_assoc], ?_⟩
  intro s hs
  rcases List.mem_append.mp hs with h | h
  · exact p1 s h
  · exact p2 s h

/-- A step that leaves `errors` and `errorMessages` alone records nothing. -/
theorem records_of_eq {st st1 : State} (h1 : st1.errorMessages = st.errorMessages)
    (h2 : st1.errors = st.errors) : Records st st1 := by
  intro h
  exact ⟨by rw [h1]; exact h, [], by simp [recordedLines, h1, h2], by simp⟩

/-- The failure block records its line, unless the buffer is full. -/
theorem records_markBroken (msg : String) (st : State) (hmsg : msg ≠ "") :
    Records st (markBroken msg st) := by
  intro h
  obtain ⟨he, hm⟩ := markBroken_errors msg st
  unfold recordedLines
  rw [he, hm]
  by_cases hlt : st.errors < MAXERRS
  · simp only [hlt, if_true]
    refine ⟨by rw [List.length_set]; exact h, [msg], ?_, by simpa using hmsg⟩
    exact take_succ_set _ _ _ (by omega)
  · simp only [hlt, if_false]
    exact ⟨h, [], by simp, by simp⟩

theorem checkAddress_records (cfg : Config) (w : World) (i : Nat) (nameserver : String)
    (j : Nat) (ip : String) (st st1 : State)
    (h : checkAddress cfg w i nameserver j ip st = .ok st1) : Records st st1 := by
  have htr : Records st { st with trace := st.trace ++ [Event.testSoa (JoinHostPort ip "53")] } :=
    records_of_eq rfl rfl
  unfold checkAddress at h
  simp only [] at h
  split at h
  · exact Except.noConfusion h
  · split at h
    · simp only [Except.ok.injEq] at h
      subst h
      exact htr.andThen (records_markBroken _ _ (by simp [append_eq_empty_iff]))
    · split at h
      · simp only [Except.ok.injEq] at h
        subst h
        exact htr.andThen (records_markBroken _ _ (by simp [append_eq_empty_iff]))
      · split at h
        · simp only [Except.ok.injEq] at h
          subst h
          exact htr.andThen (records_markBroken _ _ (by simp [append_eq_empty_iff]))
        · split at h
          · simp only [Except.ok.injEq] at h
            subst h
            exact htr.andThen (records_of_eq rfl rfl)
          · simp only [Except.ok.injEq] at h
            subst h
            exact htr.andThen (records_markBroken _ _ (by simp [append_eq_empty_iff]))
        · simp only [Except.ok.injEq] at h
          subst h
          exact htr

theorem checkAddresses_records (cfg : Config) (w : World) (i : Nat) (nameserver : String) :
    ∀ (ips : List String) (j0 : Nat) (st st1 : State),
      checkAddresses cfg w i nameserver ips j0 st = .ok st1 → Records st st1 := by
  intro ips
  induction ips with
  | nil =>
    intro j0 st st1 h
    simp only [checkAddresses, Except.ok.injEq] at h
    subst h
    exact Records.same st
  | cons ip rest ih =>
    intro j0 st st1 h
    obtain ⟨st2, h2, _, _⟩ := checkAddress_spec cfg w i nameserver j0 ip st
    simp only [checkAddresses, h2] at h
    exact (checkAddress_records cfg w i nameserver j0 ip st st2 h2).andThen
      (ih (j0 + 1) st2 st1 h)

theorem lookupFamily_records (conf : ClientConfig) (w : World) (exchange : Nat → Exchange)
    (family : String) (qtype : Nat) (pick : RR → Option String) (nameserver : String)
    (st : State) :
    Records st (lookupFamily conf w exchange family qtype pick nameserver st).1 := by
  have htr : Records st { st with trace := st.trace ++ [Event.localQuery nameserver qtype] } :=
    records_of_eq rfl rfl
  have h := lookupFamily_spec conf w exchange family qtype pick nameserver st
  cases hf : lookupFailed conf exchange
  · rw [h.2 hf]
    exact htr
  · obtain ⟨detail, hd⟩ := h.1 hf
    rw [hd]
    exact htr.andThen (records_markBroken _ _ (by simp [append_eq_empty_iff]))

theorem resolveAddresses_records (cfg : Config) (conf : ClientConfig) (w : World) (i : Nat)
    (nameserver : String) (st : State) :
    Records st (resolveAddresses cfg conf w i nameserver st).1 := by
  have hA := lookupFamily_records conf w (w.aExchange i) "IPv4" TypeA pickA nameserver st
  unfold resolveAddresses
  cases h6 : cfg.v6only <;> cases h4 : cfg.v4only <;>
    simp only [Bool.not_false, Bool.not_true, if_true, Bool.false_eq_true, if_false]
  all_goals first
    | exact Records.same st
    | (rcases hl : lookupFamily conf w (w.aExchange i) "IPv4" TypeA pickA nameserver st with
        ⟨s1, _ | ips4⟩
       all_goals rw [hl] at hA
       all_goals simp only []
       all_goals first
         | exact hA
         | (have hB := lookupFamily_records conf w (w.aaaaExchange i) "IPv6" TypeAAAA
              pickAAAA nameserver s1
            rcases hm : lookupFamily conf w (w.aaaaExchange i) "IPv6" TypeAAAA pickAAAA
              nameserver s1 with ⟨s2, _ | ips6⟩
            all_goals rw [hm] at hB
            all_goals exact hA.andThen hB))
    | (have hB := lookupFamily_records conf w (w.aaaaExchange i) "IPv6" TypeAAAA
         pickAAAA nameserver st
       rcases hm : lookupFamily conf w (w.aaaaExchange i) "IPv6" TypeAAAA pickAAAA
         nameserver st with ⟨s2, _ | ips6⟩
       all_goals rw [hm] at hB
       all_goals exact hB)

theorem processNS_records (cfg : Config) (conf : ClientConfig) (w : World) (i : Nat)
    (nameserver : String) (st st1 : State)
    (h : processNS cfg conf w i nameserver st = .ok st1) : Records st st1 := by
  have hR := resolveAddresses_records cfg conf w i nameserver
    { st with numNS := st.numNS + 1,
              infoMessages := st.infoMessages.set st.infos (nameserver ++ " : ") }
  have h0 : Records st
      { st with numNS := st.numNS + 1,
                infoMessages := st.infoMessages.set st.infos (nameserver ++ " : ") } :=
    records_of_eq rfl rfl
  unfold processNS at h
  simp only [] at h
  split at h
  · rcases hres : resolveAddresses cfg conf w i nameserver
        { st with numNS := st.numNS + 1,
                  infoMessages := st.infoMessages.set st.infos (nameserver ++ " : ") } with
      ⟨s3, _ | ips⟩
    all_goals rw [hres] at h hR
    all_goals simp only [] at h hR
    · simp only [Except.ok.injEq] at h
      subst h
      exact h0.andThen hR
    · split at h
      · split at h
        · simp only [Except.ok.injEq] at h
          subst h
          exact (h0.andThen hR).andThen (records_markBroken _ _ (by simp [append_eq_empty_iff]))
        · obtain ⟨s4, h4, _, _⟩ := checkAddresses_spec cfg w i nameserver ips 0 s3
          rw [h4] at h
          simp only [Except.ok.injEq] at h
          subst h
          exact ((h0.andThen hR).andThen
            (checkAddresses_records cfg w i nameserver ips 0 s3 s4 h4)).andThen
            (records_of_eq rfl rfl)
      · obtain ⟨s4, h4, _, _⟩ := checkAddresses_spec cfg w i nameserver ips 0
          { s3 with availableServers := s3.availableServers + 1 }
        rw [h4] at h
        simp only [Except.ok.injEq] at h
        subst h
        have ha : Records s3 { s3 with availableServers := s3.availableServers + 1 } :=
          records_of_eq rfl rfl
        exact (((h0.andThen hR).andThen ha).andThen
          (checkAddresses_records cfg w i nameserver ips 0 _ s4 h4)).andThen
          (records_of_eq rfl rfl)
  · exact Except.noConfusion h

theorem mainLoop_records (cfg : Config) (conf : ClientConfig) (w : World) :
    ∀ (answers : List RR) (i : Nat) (st st1 : State),
      mainLoop cfg conf w answers i st = .ok st1 → Records st st1 := by
  intro answers
  induction answers with
  | nil =>
    intro i st st1 h
    simp only [mainLoop, Except.ok.injEq] at h
    subst h
    exact Records.same st
  | cons ans rest ih =>
    intro i st st1 h
    have hs : Records st { st with successServer := true } := records_of_eq rfl rfl
    cases ans with
    | NS nameserver =>
      rcases hp : processNS cfg conf w i nameserver { st with successServer := true } with
        e | st2
      · simp only [mainLoop, hp] at h
        exact Except.noConfusion h
      · simp only [mainLoop, hp] at h
        exact (hs.andThen (processNS_records cfg conf w i nameserver _ st2 hp)).andThen
          (ih (i + 1) st2 st1 h)
    | A a => exact hs.andThen (ih (i + 1) _ st1 (by simpa [mainLoop] using h))
    | AAAA a => exact hs.andThen (ih (i + 1) _ st1 (by simpa [mainLoop] using h))
    | SOA s => exact hs.andThen (ih (i + 1) _ st1 (by simpa [mainLoop] using h))
    | other t => exact hs.andThen (ih (i + 1) _ st1 (by simpa [mainLoop] using h))

/-- The loop over `pre ++ post` is the loop over `pre` followed by the loop
over `post`. -/
theorem mainLoop_append (cfg : Config) (conf : ClientConfig) (w : World) :
    ∀ (pre post : List RR) (i : Nat) (st : State),
      mainLoop cfg conf w (pre ++ post) i st =
        match mainLoop cfg conf w pre i st with
        | .ok mid => mainLoop cfg conf w post (i + pre.length) mid
        | .error e => .error e := by
  intro pre
  induction pre with
  | nil => intro post i st; simp [mainLoop]
  | cons ans rest ih =>
    intro post i st
    have hidx : i + (ans :: rest).length = i + 1 + rest.length := by
      simp only [List.length_cons]; omega
    cases ans with
    | NS nameserver =>
      rcases hp : processNS cfg conf w i nameserver { st with successServer := true } with
        e | st2
      · simp only [List.cons_append, mainLoop, hp]
      · simp only [List.cons_append, mainLoop, hp]
        rw [hidx]
        exact ih post (i + 1) st2
    | A a => simp only [List.cons_append, mainLoop]; rw [hidx]; exact ih post (i + 1) _
    | AAAA a => simp only [List.cons_append, mainLoop]; rw [hidx]; exact ih post (i + 1) _
    | SOA s => simp only [List.cons_append, mainLoop]; rw [hidx]; exact ih post (i + 1) _
    | other t => simp only [List.cons_append, mainLoop]; rw [hidx]; exact ih post (i + 1) _

/-- The invariants of the error buffer at a state reached by the loop. -/
theorem mainLoop_error_buffer (cfg : Config) (conf : ClientConfig) (w : World)
    (answers : List RR) (trace : List Event) (st : State)
    (h : mainLoop cfg conf w answers 0 (initialState trace) = .ok st) :
    ErrInv st ∧ (recordedLines st).length = st.errors ∧ ∀ s ∈ recordedLines st, s ≠ "" := by
  obtain ⟨_, _, _, _, _, _, hinv⟩ := mainLoop_spec cfg conf w answers 0 _ st h
  have hE := hinv (errInv_initialState trace)
  obtain ⟨_, new, hnew, hne⟩ := mainLoop_records cfg conf w answers 0 _ st h
    (errInv_initialState trace).1
  refine ⟨hE, ?_, ?_⟩
  · simp only [recordedLines, List.length_take]
    have := hE.1
    have := hE.2.1
    omega
  · rw [hnew]
    simpa [recordedLines, initialState] using hne

/-- C16. At every state that the loop reaches between two answer records,
`min(brokenServers, 10) ≤ errors ≤ 10`, the recorded lines are the first
`errors` slots of the buffer and none of them is empty; the lines recorded
at such a state stay, in the same order, the first recorded lines of every
later state. Consequently, when the verdict is taken by the threshold rule
with `brokenServers ≥ warning ≥ 1`, it is WARNING or CRITICAL, at least one
line is recorded, the headline is the first recorded line and is not empty,
and the slice `errorMessages[1:errors]` is in bounds and holds the other
recorded lines in recording order. -/
theorem error_lines_back_threshold_verdicts (cfg : Config) (conf : ClientConfig) (w : World)
    (trace : List Event) :
    (∀ pre mid, mainLoop cfg conf w pre 0 (initialState trace) = .ok mid →
      min mid.brokenServers MAXERRS ≤ mid.errors ∧ mid.errors ≤ MAXERRS ∧
      (recordedLines mid).length = mid.errors ∧ ∀ s ∈ recordedLines mid, s ≠ "") ∧
    (∀ pre post final, mainLoop cfg conf w (pre ++ post) 0 (initialState trace) = .ok final →
      ∃ mid later, mainLoop cfg conf w pre 0 (initialState trace) = .ok mid ∧
        recordedLines final = recordedLines mid ++ later) ∧
    (∀ answers final, mainLoop cfg conf w answers 0 (initialState trace) = .ok final →
      1 ≤ cfg.warningThreshold → cfg.warningThreshold ≤ final.brokenServers →
      0 < final.availableServers → 0 < final.numNS →
      ∃ e first rest, verdict cfg final = .ok e ∧
        (e.status = nagios.WARNING ∨ e.status = nagios.CRITICAL) ∧
        recordedLines final = first :: rest ∧ first ≠ "" ∧
        e.msg = first ∧ e.extraMessages = rest) := by
  refine ⟨?_, ?_, ?_⟩
  · intro pre mid h
    obtain ⟨⟨_, h2, h3⟩, h4, h5⟩ := mainLoop_error_buffer cfg conf w pre trace mid h
    refine ⟨?_, h2, h4, h5⟩
    rcases h3 with h3 | h3
    · exact Nat.le_trans (Nat.min_le_left _ _) h3
    · rw [h3]; exact Nat.min_le_right _ _
  · intro pre post final h
    rw [mainLoop_append] at h
    rcases hp : mainLoop cfg conf w pre 0 (initialState trace) with e | mid
    · rw [hp] at h
      exact Except.noConfusion h
    · rw [hp] at h
      simp only [] at h
      obtain ⟨hE, _, _⟩ := mainLoop_error_buffer cfg conf w pre trace mid hp
      obtain ⟨_, later, hl, _⟩ := mainLoop_records cfg conf w post _ mid final h hE.1
      exact ⟨mid, later, rfl, hl⟩
  · intro answers final h hw hb hav hns
    obtain ⟨⟨elen, ecap, ebrk⟩, hlen, hne⟩ := mainLoop_error_buffer cfg conf w answers trace final h
    have herr : 1 ≤ final.errors := by
      rcases ebrk with h1 | h1
      · omega
      · rw [h1]; decide
    cases hrec : recordedLines final with
    | nil => rw [hrec] at hlen; simp at hlen; omega
    | cons first rest =>
      have hfirst : final.errorMessages[0]? = some first := by
        have := congrArg (fun l => l[0]?) hrec
        simp only [recordedLines, List.getElem?_take, List.getElem?_cons_zero] at this
        rwa [if_pos (by omega)] at this
      have hslice : slice final.errorMessages 1 final.errors = .ok rest := by
        rw [slice_ok _ _ _ herr (by omega)]
        unfold recordedLines at hrec
        rw [hrec]
        rfl
      have hv : verdict cfg final = .ok
          ⟨if final.brokenServers < cfg.criticalThreshold then nagios.WARNING
            else nagios.CRITICAL, first, rest, false, cfg.Verbosity, final.trace⟩ := by
        unfold verdict
        rw [if_neg (by omega), if_neg (by omega), if_neg (by omega), hfirst, hslice]
      refine ⟨_, first, rest, hv, ?_, rfl, hne first (by rw [hrec]; simp), rfl, rfl⟩
      by_cases hc : final.brokenServers < cfg.criticalThreshold
      · exact Or.inl (by simp only [hc, if_true])
      · exact Or.inr (by simp only [hc, if_false])

theorem error_lines_back_threshold_verdicts_witness :
    oneLameFinal.brokenServers = 1 ∧
    ∃ e, verdict exampleCfg oneLameFinal = .ok e ∧ e.status = nagios.WARNING ∧
      e.msg = "ns2.example./192.0.2.2 is not authoritative" ∧ e.extraMessages = [] := by
  obtain ⟨e, first, rest, h1, _, h3, _, h5, h6⟩ :=
    (error_lines_back_threshold_verdicts exampleCfg exampleConf oneLameWorld []).2.2
      exampleAnswers oneLameFinal (by rfl) (by decide) (by decide) (by decide) (by decide)
  have hl : recordedLines oneLameFinal = ["ns2.example./192.0.2.2 is not authoritative"] := by
    decide
  rw [hl] at h3
  simp only [List.cons.injEq] at h3
  have hs : e.status = nagios.WARNING := by
    have hv : (verdict exampleCfg oneLameFinal).toOption.map (fun e => e.status) =
        some nagios.WARNING := by decide
    rw [h1] at hv
    simpa [Except.toOption] using hv
  exact ⟨by decide, e, h1, hs, by rw [h5, ← h3.1], by rw [h6, ← h3.2]⟩

end CheckDnsSoa
